import Mathlib

/-!
Verification of the grub nutrition-tracking core (Rust sources under
src/core and src/cli) against its natural-language specification.

The relational store is shallowly embedded: each SQL table is a Lean list
of row structures mirroring the Rust structs, SQL lookups become list
searches, and the store operations of src/core/src/db.rs are translated
function by function.  Floating-point nutrition values are modelled as
exact rationals; RFC 3339 timestamps, uuids and YYYY-MM-DD dates are
modelled as strings ordered lexicographically, exactly as the source
compares them.
-/

namespace Grub

/-- A row of the foods table, mirroring struct Food in src/core/src/models.rs
(local surrogate id plus the shadow uuid / updated_at pair). -/
structure Food where
  id : Int
  name : String
  brand : Option String
  barcode : Option String
  calories_per_100g : ℚ
  protein_per_100g : Option ℚ
  carbs_per_100g : Option ℚ
  fat_per_100g : Option ℚ
  default_serving_g : Option ℚ
  source : String
  created_at : String
  uuid : String
  updated_at : String
  deriving Repr, DecidableEq

/-- Input payload for inserting a food, mirroring struct NewFood. -/
structure NewFood where
  name : String
  brand : Option String
  barcode : Option String
  calories_per_100g : ℚ
  protein_per_100g : Option ℚ
  carbs_per_100g : Option ℚ
  fat_per_100g : Option ℚ
  default_serving_g : Option ℚ
  source : String
  deriving Repr, DecidableEq

/-- Fresh AUTOINCREMENT rowid for a list of rows with the given id
projection: one larger than the largest id present. -/
def next_id (ids : List Int) : Int :=
  (ids.foldr max 0) + 1

/-- Database::insert_food: allocate a rowid, set created_at = updated_at =
now, store the row and return it.  The wall clock and the generated v4
uuid are passed in as oracle arguments. -/
def insert_food (foods : List Food) (nf : NewFood) (now uuid : String) :
    Food × List Food :=
  let f : Food :=
    { id := next_id (foods.map Food.id)
      name := nf.name
      brand := nf.brand
      barcode := nf.barcode
      calories_per_100g := nf.calories_per_100g
      protein_per_100g := nf.protein_per_100g
      carbs_per_100g := nf.carbs_per_100g
      fat_per_100g := nf.fat_per_100g
      default_serving_g := nf.default_serving_g
      source := nf.source
      created_at := now
      uuid := uuid
      updated_at := now }
  (f, foods ++ [f])

/-- Database::get_food_by_barcode: first row whose barcode equals the
argument (SELECT * FROM foods WHERE barcode = ?1). -/
def get_food_by_barcode (foods : List Food) (b : String) : Option Food :=
  foods.find? (fun f => f.barcode = some b)

/-- Database::upsert_food_by_barcode: if the input has a barcode and a row
with that barcode exists, return it unchanged; otherwise insert. -/
def upsert_food_by_barcode (foods : List Food) (nf : NewFood)
    (now uuid : String) : Food × List Food :=
  match nf.barcode with
  | some b =>
      match get_food_by_barcode foods b with
      | some existing => (existing, foods)
      | none => insert_food foods nf now uuid
  | none => insert_food foods nf now uuid

theorem insert_food_mem_barcode (foods : List Food) (nf : NewFood)
    (now uuid : String) :
    (insert_food foods nf now uuid).1 ∈ (insert_food foods nf now uuid).2 ∧
      (insert_food foods nf now uuid).1.barcode = nf.barcode := by
  constructor
  · simp [insert_food]
  · rfl

/-- C7: with a non-null barcode, an existing row with that barcode is
returned with the store untouched, otherwise the food is inserted; hence a
second identical call leaves the store of the first call unchanged and
returns a row with the same barcode. -/
theorem upsert_food_by_barcode_idempotent (foods : List Food) (nf : NewFood)
    (b : String) (hb : nf.barcode = some b) (n1 u1 n2 u2 : String) :
    (∀ f, get_food_by_barcode foods b = some f →
        upsert_food_by_barcode foods nf n1 u1 = (f, foods)) ∧
    (get_food_by_barcode foods b = none →
        upsert_food_by_barcode foods nf n1 u1 = insert_food foods nf n1 u1) ∧
    (upsert_food_by_barcode
        (upsert_food_by_barcode foods nf n1 u1).2 nf n2 u2).2 =
      (upsert_food_by_barcode foods nf n1 u1).2 := by
  refine ⟨?_, ?_, ?_⟩
  · intro f hf
    simp [upsert_food_by_barcode, hb, hf]
  · intro hnone
    simp [upsert_food_by_barcode, hb, hnone]
  · cases hfind : get_food_by_barcode foods b with
    | some f =>
        simp [upsert_food_by_barcode, hb, hfind]
    | none =>
        have hins : get_food_by_barcode (insert_food foods nf n1 u1).2 b =
            some (insert_food foods nf n1 u1).1 := by
          unfold get_food_by_barcode at hfind ⊢
          unfold insert_food
          rw [List.find?_append, hfind]
          simp [insert_food, hb]
        simp [upsert_food_by_barcode, hb, hfind, hins]

/-- A concrete barcoded food used by witness theorems. -/
def witFood : NewFood :=
  { name := "Chicken", brand := none, barcode := some "123"
    calories_per_100g := 165, protein_per_100g := some 31
    carbs_per_100g := some 0, fat_per_100g := some 4
    default_serving_g := none, source := "user" }

/-- Closed instance of the C7 theorem at a concrete store and food. -/
theorem upsert_food_by_barcode_idempotent_witness :
    (upsert_food_by_barcode
        (upsert_food_by_barcode [] witFood "t1" "u1").2 witFood "t2" "u2").2 =
      (upsert_food_by_barcode [] witFood "t1" "u1").2 :=
  (upsert_food_by_barcode_idempotent [] witFood "123" rfl "t1" "u1" "t2" "u2").2.2

/-- A row of the weight_entries table (one measurement per calendar
date). -/
structure WeightEntry where
  id : Int
  uuid : String
  date : String
  weight_kg : ℚ
  source : String
  notes : Option String
  created_at : String
  updated_at : String
  deriving Repr, DecidableEq

/-- Input payload for logging a weight, mirroring struct NewWeightEntry
(the date is already formatted YYYY-MM-DD). -/
structure NewWeightEntry where
  date : String
  weight_kg : ℚ
  source : String
  notes : Option String
  deriving Repr, DecidableEq

/-- The conflict branch of Database::upsert_weight: ON CONFLICT(date) DO
UPDATE SET weight_kg, source, notes, updated_at from the attempted insert
(everything else on the row is left alone). -/
def weight_conflict_update (e : NewWeightEntry) (now : String)
    (r : WeightEntry) : WeightEntry :=
  if r.date == e.date then
    { r with
        weight_kg := e.weight_kg
        source := e.source
        notes := e.notes
        updated_at := now }
  else r

/-- Database::upsert_weight: INSERT a fresh row (new rowid, fresh uuid,
created_at = updated_at = now); ON CONFLICT(date) only weight_kg, source,
notes and updated_at are replaced on the existing row. -/
def upsert_weight (entries : List WeightEntry) (e : NewWeightEntry)
    (now uuid : String) : List WeightEntry :=
  if entries.any (fun r => r.date == e.date) then
    entries.map (weight_conflict_update e now)
  else
    entries ++ [{ id := next_id (entries.map WeightEntry.id)
                  uuid := uuid
                  date := e.date
                  weight_kg := e.weight_kg
                  source := e.source
                  notes := e.notes
                  created_at := now
                  updated_at := now }]

theorem weight_conflict_update_uuid (e : NewWeightEntry) (now : String)
    (r : WeightEntry) : (weight_conflict_update e now r).uuid = r.uuid := by
  unfold weight_conflict_update
  split <;> rfl

/-- C10: when the date already has a weight entry, only weight_kg, source,
notes and updated_at are replaced; id, uuid and created_at of that row are
preserved, rows for other dates are untouched, and the fresh insert-path
uuid never appears in the store. -/
theorem upsert_weight_existing_frame (entries : List WeightEntry)
    (e : NewWeightEntry) (now u : String)
    (hex : ∃ r ∈ entries, r.date = e.date)
    (hu : ∀ r ∈ entries, r.uuid ≠ u) :
    upsert_weight entries e now u =
      entries.map (weight_conflict_update e now) ∧
    (∀ r ∈ entries, r.date = e.date →
      ∃ r' ∈ upsert_weight entries e now u,
        r'.id = r.id ∧ r'.uuid = r.uuid ∧ r'.created_at = r.created_at ∧
        r'.weight_kg = e.weight_kg ∧ r'.source = e.source ∧
        r'.notes = e.notes ∧ r'.updated_at = now) ∧
    (∀ r ∈ entries, r.date ≠ e.date → r ∈ upsert_weight entries e now u) ∧
    (∀ r ∈ upsert_weight entries e now u, r.uuid ≠ u) := by
  obtain ⟨r0, hr0mem, hr0date⟩ := hex
  have hany : (entries.any (fun r => r.date == e.date)) = true := by
    rw [List.any_eq_true]
    exact ⟨r0, hr0mem, by simp [hr0date]⟩
  have hresult : upsert_weight entries e now u =
      entries.map (weight_conflict_update e now) := by
    simp only [upsert_weight, hany, if_true]
  refine ⟨hresult, ?_, ?_, ?_⟩
  · intro r hrmem hrdate
    refine ⟨weight_conflict_update e now r, ?_, ?_⟩
    · rw [hresult]
      exact List.mem_map_of_mem _ hrmem
    · simp [weight_conflict_update, hrdate]
  · intro r hrmem hrdate
    rw [hresult]
    have hid : weight_conflict_update e now r = r := by
      simp [weight_conflict_update, hrdate]
    exact hid ▸ List.mem_map_of_mem _ hrmem
  · intro r hrmem
    rw [hresult] at hrmem
    obtain ⟨r0, hr0, hr0eq⟩ := List.mem_map.mp hrmem
    have : r.uuid = r0.uuid := by
      rw [← hr0eq, weight_conflict_update_uuid]
    rw [this]
    exact hu r0 hr0

/-- A concrete stored weight row used by witness theorems. -/
def witWeightRow : WeightEntry :=
  { id := 1, uuid := "u-old", date := "2024-06-15", weight_kg := 80
    source := "manual", notes := some "n", created_at := "T0"
    updated_at := "T0" }

/-- A concrete incoming weight measurement used by witness theorems. -/
def witNewWeight : NewWeightEntry :=
  { date := "2024-06-15", weight_kg := 81, source := "manual", notes := none }

/-- Closed instance of the C10 theorem at a concrete one-row store. -/
theorem upsert_weight_existing_frame_witness :
    upsert_weight [witWeightRow] witNewWeight "T2" "u-new" =
      [witWeightRow].map (weight_conflict_update witNewWeight "T2") := by
  exact (upsert_weight_existing_frame [witWeightRow] witNewWeight "T2"
      "u-new" ⟨witWeightRow, by simp, rfl⟩
      (by intro r hr; simp at hr; subst hr; decide)).1

/-- Database::get_food_by_uuid: first row whose uuid equals the argument
(SELECT * FROM foods WHERE uuid = ?1; the uuid column carries a unique
index). -/
def get_food_by_uuid (foods : List Food) (u : String) : Option Food :=
  foods.find? (fun f => f.uuid == u)

/-- The UPDATE of step 1 of Database::apply_remote_changes: overwrite every
mutable column and updated_at of a local row with the incoming values
(id, created_at and uuid are not in the SET list). -/
def overwrite_food (inc r : Food) : Food :=
  { r with
      name := inc.name
      brand := inc.brand
      barcode := inc.barcode
      calories_per_100g := inc.calories_per_100g
      protein_per_100g := inc.protein_per_100g
      carbs_per_100g := inc.carbs_per_100g
      fat_per_100g := inc.fat_per_100g
      default_serving_g := inc.default_serving_g
      source := inc.source
      updated_at := inc.updated_at }

/-- Step 1 of Database::apply_remote_changes for one incoming food row:
skip empty uuids; on a local row with the same uuid overwrite when the
incoming updated_at is strictly newer, else leave everything alone; on a
missing uuid insert the row, keeping the incoming uuid and both
timestamps and allocating a fresh rowid. -/
def merge_food (foods : List Food) (inc : Food) : List Food :=
  if inc.uuid = "" then foods
  else
    match get_food_by_uuid foods inc.uuid with
    | some existing =>
        if existing.updated_at < inc.updated_at then
          foods.map (fun r => if r.uuid == inc.uuid then overwrite_food inc r else r)
        else foods
    | none => foods ++ [{ inc with id := next_id (foods.map Food.id) }]

/-- Step 1 of Database::apply_remote_changes over the whole incoming food
list, processed in order. -/
def merge_foods (foods : List Food) (incs : List Food) : List Food :=
  incs.foldl merge_food foods

/-- C1: the LWW food merge. With a non-empty incoming uuid: a strictly
newer incoming row overwrites exactly the mutable columns and updated_at
of the matching local row (id, created_at, uuid survive); a non-newer
incoming row leaves the store completely unchanged; an unknown uuid is
inserted preserving the incoming uuid, created_at and updated_at. -/
theorem apply_remote_food_lww (foods : List Food) (inc : Food)
    (hne : inc.uuid ≠ "") :
    (∀ ex, get_food_by_uuid foods inc.uuid = some ex →
      ((ex.updated_at < inc.updated_at →
          merge_food foods inc =
            foods.map (fun r =>
              if r.uuid == inc.uuid then overwrite_food inc r else r) ∧
          ∀ r : Food, (overwrite_food inc r).id = r.id ∧
            (overwrite_food inc r).created_at = r.created_at ∧
            (overwrite_food inc r).uuid = r.uuid ∧
            (overwrite_food inc r).name = inc.name ∧
            (overwrite_food inc r).brand = inc.brand ∧
            (overwrite_food inc r).barcode = inc.barcode ∧
            (overwrite_food inc r).calories_per_100g = inc.calories_per_100g ∧
            (overwrite_food inc r).protein_per_100g = inc.protein_per_100g ∧
            (overwrite_food inc r).carbs_per_100g = inc.carbs_per_100g ∧
            (overwrite_food inc r).fat_per_100g = inc.fat_per_100g ∧
            (overwrite_food inc r).default_serving_g = inc.default_serving_g ∧
            (overwrite_food inc r).source = inc.source ∧
            (overwrite_food inc r).updated_at = inc.updated_at) ∧
        (¬ ex.updated_at < inc.updated_at → merge_food foods inc = foods))) ∧
    (get_food_by_uuid foods inc.uuid = none →
      merge_food foods inc =
        foods ++ [{ inc with id := next_id (foods.map Food.id) }] ∧
      ∃ r ∈ merge_food foods inc, r.uuid = inc.uuid ∧
        r.created_at = inc.created_at ∧ r.updated_at = inc.updated_at) := by
  constructor
  · intro ex hex
    refine ⟨fun hlt => ⟨?_, fun r => by simp [overwrite_food]⟩, fun hge => ?_⟩
    · simp [merge_food, hne, hex, hlt]
    · simp [merge_food, hne, hex, hge]
  · intro hnone
    have heq : merge_food foods inc =
        foods ++ [{ inc with id := next_id (foods.map Food.id) }] := by
      simp [merge_food, hne, hnone]
    refine ⟨heq, ⟨{ inc with id := next_id (foods.map Food.id) }, ?_, by simp⟩⟩
    rw [heq]
    simp

/-- A concrete incoming sync food row used by witness theorems. -/
def witIncFood : Food :=
  { id := 99, name := "Rice", brand := none, barcode := none
    calories_per_100g := 130, protein_per_100g := some 2
    carbs_per_100g := some 28, fat_per_100g := some 0
    default_serving_g := none, source := "user"
    created_at := "T0", uuid := "u-rice", updated_at := "T1" }

/-- Closed instance of the C1 theorem: a fresh uuid is inserted with its
timestamps preserved, and a non-newer update is a no-op. -/
theorem apply_remote_food_lww_witness :
    merge_food [] witIncFood = [{ witIncFood with id := 1 }] ∧
      merge_food [{ witIncFood with id := 1 }] witIncFood =
        [{ witIncFood with id := 1 }] := by
  constructor
  · exact ((apply_remote_food_lww [] witIncFood (by decide)).2 rfl).1
  · exact (((apply_remote_food_lww [{ witIncFood with id := 1 }] witIncFood
      (by decide)).1 { witIncFood with id := 1 } rfl).2
      (by rw [String.lt_iff_toList_lt]; decide))

/-- A row of the meal_entries table. -/
structure MealEntryRow where
  id : Int
  date : String
  meal_type : String
  food_id : Int
  serving_g : ℚ
  display_unit : Option String
  display_quantity : Option ℚ
  created_at : String
  uuid : String
  updated_at : String
  deriving Repr, DecidableEq

/-- A row of the recipes table. -/
structure Recipe where
  id : Int
  uuid : String
  food_id : Int
  portions : ℚ
  created_at : String
  updated_at : String
  deriving Repr, DecidableEq

/-- A row of the recipe_ingredients table. -/
structure RecipeIngredientRow where
  id : Int
  recipe_id : Int
  food_id : Int
  quantity_g : ℚ
  uuid : String
  updated_at : String
  deriving Repr, DecidableEq

/-- A row of the targets table (keyed by day_of_week, no uuid). -/
structure TargetRow where
  day_of_week : Int
  calories : Int
  protein_pct : Option Int
  carbs_pct : Option Int
  fat_pct : Option Int
  updated_at : String
  deriving Repr, DecidableEq

/-- A tombstone row, mirroring struct SyncTombstone. -/
structure SyncTombstone where
  uuid : String
  table_name : String
  deleted_at : String
  deriving Repr, DecidableEq

/-- Wire shape of a meal entry, carrying food_uuid from the join
(struct ExportMealEntry). -/
structure ExportMealEntry where
  id : Int
  uuid : String
  date : String
  meal_type : String
  food_id : Int
  food_uuid : String
  serving_g : ℚ
  display_unit : Option String
  display_quantity : Option ℚ
  created_at : String
  updated_at : String
  deriving Repr, DecidableEq

/-- Wire shape of a recipe, carrying food_uuid (struct ExportRecipe). -/
structure ExportRecipe where
  id : Int
  uuid : String
  food_id : Int
  food_uuid : String
  portions : ℚ
  created_at : String
  updated_at : String
  deriving Repr, DecidableEq

/-- Wire shape of a recipe ingredient, carrying recipe_uuid and food_uuid
(struct ExportRecipeIngredient; note it has no updated_at). -/
structure ExportRecipeIngredient where
  id : Int
  uuid : String
  recipe_id : Int
  recipe_uuid : String
  food_id : Int
  food_uuid : String
  quantity_g : ℚ
  deriving Repr, DecidableEq

/-- Wire shape of a daily target (struct ExportTarget; updated_at is
optional on the wire). -/
structure ExportTarget where
  day_of_week : Int
  calories : Int
  protein_pct : Option Int
  carbs_pct : Option Int
  fat_pct : Option Int
  updated_at : Option String
  deriving Repr, DecidableEq

/-- Wire shape of a weight entry (struct ExportWeightEntry). -/
structure ExportWeightEntry where
  uuid : String
  date : String
  weight_kg : ℚ
  source : String
  notes : Option String
  created_at : String
  updated_at : String
  deriving Repr, DecidableEq

/-- The whole relational store: one list per table, in rowid order. -/
structure DbState where
  foods : List Food
  meal_entries : List MealEntryRow
  recipes : List Recipe
  recipe_ingredients : List RecipeIngredientRow
  targets : List TargetRow
  weight_entries : List WeightEntry
  sync_tombstones : List SyncTombstone
  deriving Repr, DecidableEq

/-- The delta payload produced by Database::changes_since
(struct SyncPayload). -/
structure SyncPayload where
  foods : List Food
  meal_entries : List ExportMealEntry
  recipes : List ExportRecipe
  recipe_ingredients : List ExportRecipeIngredient
  targets : List ExportTarget
  weight_entries : List ExportWeightEntry
  tombstones : List SyncTombstone
  server_timestamp : String
  deriving Repr, DecidableEq

/-- Body of POST /api/sync (struct SyncPushRequest). -/
structure SyncPushRequest where
  since : Option String
  foods : List Food
  meal_entries : List ExportMealEntry
  recipes : List ExportRecipe
  recipe_ingredients : List ExportRecipeIngredient
  targets : List ExportTarget
  weight_entries : List ExportWeightEntry
  tombstones : List SyncTombstone
  deriving Repr, DecidableEq

/-- Database::get_food_by_id as a lookup (SELECT * FROM foods WHERE id). -/
def get_food_by_id (foods : List Food) (i : Int) : Option Food :=
  foods.find? (fun f => f.id == i)

/-- Database::get_recipe_by_id / get_recipe_by_uuid lookups. -/
def get_recipe_by_id (recipes : List Recipe) (i : Int) : Option Recipe :=
  recipes.find? (fun r => r.id == i)

def get_recipe_by_uuid (recipes : List Recipe) (u : String) : Option Recipe :=
  recipes.find? (fun r => r.uuid == u)

/-- The meal-entry export query (JOIN foods ON me.food_id = f.id) with a
row predicate standing for the WHERE clause on me.updated_at; rows whose
food is gone drop out of the join. -/
def export_meal_entries_where (s : DbState) (p : MealEntryRow → Bool) :
    List ExportMealEntry :=
  (s.meal_entries.filter p).filterMap (fun me =>
    (get_food_by_id s.foods me.food_id).map (fun f =>
      { id := me.id
        uuid := me.uuid
        date := me.date
        meal_type := me.meal_type
        food_id := me.food_id
        food_uuid := f.uuid
        serving_g := me.serving_g
        display_unit := me.display_unit
        display_quantity := me.display_quantity
        created_at := me.created_at
        updated_at := me.updated_at }))

/-- The recipe export query (JOIN foods ON r.food_id = f.id). -/
def export_recipes_where (s : DbState) (p : Recipe → Bool) :
    List ExportRecipe :=
  (s.recipes.filter p).filterMap (fun r =>
    (get_food_by_id s.foods r.food_id).map (fun f =>
      { id := r.id
        uuid := r.uuid
        food_id := r.food_id
        food_uuid := f.uuid
        portions := r.portions
        created_at := r.created_at
        updated_at := r.updated_at }))

/-- The recipe-ingredient export query (JOIN recipes and foods). -/
def export_recipe_ingredients_where (s : DbState)
    (p : RecipeIngredientRow → Bool) : List ExportRecipeIngredient :=
  (s.recipe_ingredients.filter p).filterMap (fun ri =>
    match get_recipe_by_id s.recipes ri.recipe_id,
        get_food_by_id s.foods ri.food_id with
    | some r, some f =>
        some { id := ri.id
               uuid := ri.uuid
               recipe_id := ri.recipe_id
               recipe_uuid := r.uuid
               food_id := ri.food_id
               food_uuid := f.uuid
               quantity_g := ri.quantity_g }
    | _, _ => none)

/-- Row-to-wire projection for targets (updated_at becomes present). -/
def export_target (t : TargetRow) : ExportTarget :=
  { day_of_week := t.day_of_week
    calories := t.calories
    protein_pct := t.protein_pct
    carbs_pct := t.carbs_pct
    fat_pct := t.fat_pct
    updated_at := some t.updated_at }

/-- Row-to-wire projection for weight entries. -/
def export_weight_entry (w : WeightEntry) : ExportWeightEntry :=
  { uuid := w.uuid
    date := w.date
    weight_kg := w.weight_kg
    source := w.source
    notes := w.notes
    created_at := w.created_at
    updated_at := w.updated_at }

/-- Database::changes_since: with a watermark, every sync-participating
row with updated_at strictly after it plus every tombstone with deleted_at
strictly after it; without a watermark, the full state.  The fresh
server_timestamp is echoed into the payload. -/
def changes_since (s : DbState) (since : Option String) (ts : String) :
    SyncPayload :=
  match since with
  | some t =>
      { foods := s.foods.filter (fun f => t < f.updated_at)
        meal_entries := export_meal_entries_where s (fun me => t < me.updated_at)
        recipes := export_recipes_where s (fun r => t < r.updated_at)
        recipe_ingredients :=
          export_recipe_ingredients_where s (fun ri => t < ri.updated_at)
        targets := (s.targets.filter (fun r => t < r.updated_at)).map export_target
        weight_entries :=
          (s.weight_entries.filter (fun w => t < w.updated_at)).map export_weight_entry
        tombstones := s.sync_tombstones.filter (fun x => t < x.deleted_at)
        server_timestamp := ts }
  | none =>
      { foods := s.foods
        meal_entries := export_meal_entries_where s (fun _ => true)
        recipes := export_recipes_where s (fun _ => true)
        recipe_ingredients := export_recipe_ingredients_where s (fun _ => true)
        targets := s.targets.map export_target
        weight_entries := s.weight_entries.map export_weight_entry
        tombstones := s.sync_tombstones
        server_timestamp := ts }

/-- Step 1 of Database::apply_remote_changes with the food_uuid to
local_id side map it builds (newest binding first, like HashMap::insert
overwriting). -/
def merge_food_map (acc : List Food × List (String × Int)) (inc : Food) :
    List Food × List (String × Int) :=
  if inc.uuid = "" then acc
  else
    match get_food_by_uuid acc.1 inc.uuid with
    | some existing =>
        let m := (inc.uuid, existing.id) :: acc.2
        if existing.updated_at < inc.updated_at then
          (acc.1.map (fun r =>
            if r.uuid == inc.uuid then overwrite_food inc r else r), m)
        else (acc.1, m)
    | none =>
        let nid := next_id (acc.1.map Food.id)
        (acc.1 ++ [{ inc with id := nid }], (inc.uuid, nid) :: acc.2)

/-- Resolution of a food_uuid reference: empty means unresolved; otherwise
the side map is consulted first and the foods table second. -/
def resolve_food_uuid (m : List (String × Int)) (foods : List Food)
    (u : String) : Option Int :=
  if u = "" then none
  else
    match m.lookup u with
    | some i => some i
    | none => (get_food_by_uuid foods u).map Food.id

/-- Resolution of a recipe_uuid reference (side map, then recipes table). -/
def resolve_recipe_uuid (m : List (String × Int)) (recipes : List Recipe)
    (u : String) : Option Int :=
  if u = "" then none
  else
    match m.lookup u with
    | some i => some i
    | none => (get_recipe_by_uuid recipes u).map Recipe.id

/-- Step 2 of Database::apply_remote_changes for one incoming meal entry:
skip empty uuids and unresolvable food references; LWW update by uuid or
insert preserving the incoming identity and timestamps. -/
def merge_meal_entry (foods : List Food) (fm : List (String × Int))
    (entries : List MealEntryRow) (e : ExportMealEntry) : List MealEntryRow :=
  if e.uuid = "" then entries
  else
    match resolve_food_uuid fm foods e.food_uuid with
    | none => entries
    | some food_id =>
        match entries.find? (fun r => r.uuid == e.uuid) with
        | some existing =>
            if existing.updated_at < e.updated_at then
              entries.map (fun r =>
                if r.id == existing.id then
                  { r with
                      date := e.date
                      meal_type := e.meal_type
                      food_id := food_id
                      serving_g := e.serving_g
                      display_unit := e.display_unit
                      display_quantity := e.display_quantity
                      updated_at := e.updated_at }
                else r)
            else entries
        | none =>
            entries ++ [{ id := next_id (entries.map MealEntryRow.id)
                          date := e.date
                          meal_type := e.meal_type
                          food_id := food_id
                          serving_g := e.serving_g
                          display_unit := e.display_unit
                          display_quantity := e.display_quantity
                          created_at := e.created_at
                          uuid := e.uuid
                          updated_at := e.updated_at }]

/-- Step 3 of Database::apply_remote_changes for one incoming recipe,
threading the recipe_uuid to local_id side map. -/
def merge_recipe (foods : List Food) (fm : List (String × Int))
    (acc : List Recipe × List (String × Int)) (inc : ExportRecipe) :
    List Recipe × List (String × Int) :=
  if inc.uuid = "" then acc
  else
    match resolve_food_uuid fm foods inc.food_uuid with
    | none => acc
    | some food_id =>
        match get_recipe_by_uuid acc.1 inc.uuid with
        | some existing =>
            let m := (inc.uuid, existing.id) :: acc.2
            if existing.updated_at < inc.updated_at then
              (acc.1.map (fun r =>
                if r.id == existing.id then
                  { r with
                      food_id := food_id
                      portions := inc.portions
                      updated_at := inc.updated_at }
                else r), m)
            else (acc.1, m)
        | none =>
            let nid := next_id (acc.1.map Recipe.id)
            (acc.1 ++ [{ id := nid
                         uuid := inc.uuid
                         food_id := food_id
                         portions := inc.portions
                         created_at := inc.created_at
                         updated_at := inc.updated_at }], (inc.uuid, nid) :: acc.2)

/-- Step 4 of Database::apply_remote_changes for one incoming recipe
ingredient: replace-by-uuid (no LWW), recording the touched recipe for the
recompute pass.  The wall clock reading used for an insert is passed as
the now oracle. -/
def merge_recipe_ingredient (foods : List Food) (fm : List (String × Int))
    (recipes : List Recipe) (rm : List (String × Int)) (now : String)
    (acc : List RecipeIngredientRow × List Int) (inc : ExportRecipeIngredient) :
    List RecipeIngredientRow × List Int :=
  if inc.uuid = "" then acc
  else
    match resolve_recipe_uuid rm recipes inc.recipe_uuid,
        resolve_food_uuid fm foods inc.food_uuid with
    | some recipe_id, some food_id =>
        let rows :=
          match acc.1.find? (fun r => r.uuid == inc.uuid) with
          | some existing =>
              acc.1.map (fun r =>
                if r.id == existing.id then
                  { r with
                      recipe_id := recipe_id
                      food_id := food_id
                      quantity_g := inc.quantity_g }
                else r)
          | none =>
              acc.1 ++ [{ id := next_id (acc.1.map RecipeIngredientRow.id)
                          recipe_id := recipe_id
                          food_id := food_id
                          quantity_g := inc.quantity_g
                          uuid := inc.uuid
                          updated_at := now }]
        (rows, if recipe_id ∈ acc.2 then acc.2 else acc.2 ++ [recipe_id])
    | _, _ => acc

/-- The ingredient listing of Database::get_recipe_ingredients: rows of
the recipe joined with their foods (rows whose food is missing drop out of
the join). -/
def recipe_ingredient_join (s : DbState) (rid : Int) :
    List (RecipeIngredientRow × Food) :=
  (s.recipe_ingredients.filter (fun ri => ri.recipe_id == rid)).filterMap
    (fun ri => (get_food_by_id s.foods ri.food_id).map (fun f => (ri, f)))

/-- The weighted totals of Database::recompute_recipe_food over the
ingredient join: total weight, then the calorie, protein, carb and fat
totals (optional macros are summed over the rows where they are
present). -/
def recompute_totals (ings : List (RecipeIngredientRow × Food)) :
    ℚ × ℚ × ℚ × ℚ × ℚ :=
  ((ings.map (fun p => p.1.quantity_g)).sum,
   (ings.map (fun p => p.2.calories_per_100g * p.1.quantity_g / 100)).sum,
   (ings.filterMap (fun p =>
     p.2.protein_per_100g.map (fun v => v * p.1.quantity_g / 100))).sum,
   (ings.filterMap (fun p =>
     p.2.carbs_per_100g.map (fun v => v * p.1.quantity_g / 100))).sum,
   (ings.filterMap (fun p =>
     p.2.fat_per_100g.map (fun v => v * p.1.quantity_g / 100))).sum)

/-- The per-100g values Database::recompute_recipe_food writes: scaled
totals when the total weight is positive, zeroes otherwise (in the order
calories, protein, carbs, fat, default serving). -/
def recompute_vals (ings : List (RecipeIngredientRow × Food)) (portions : ℚ) :
    ℚ × ℚ × ℚ × ℚ × ℚ :=
  let t := recompute_totals ings
  if t.1 > 0 then
    (t.2.1 * 100 / t.1, t.2.2.1 * 100 / t.1, t.2.2.2.1 * 100 / t.1,
     t.2.2.2.2 * 100 / t.1, t.1 / portions)
  else (0, 0, 0, 0, 0)

/-- The UPDATE of Database::recompute_recipe_food on one foods row. -/
def recompute_update (vals : ℚ × ℚ × ℚ × ℚ × ℚ) (food_id : Int)
    (now : String) (f : Food) : Food :=
  if f.id == food_id then
    { f with
        calories_per_100g := vals.1
        protein_per_100g := some vals.2.1
        carbs_per_100g := some vals.2.2.1
        fat_per_100g := some vals.2.2.2.1
        default_serving_g := some vals.2.2.2.2
        updated_at := now }
  else f

/-- Database::recompute_recipe_food: recompute the virtual food row of a
recipe from the weighted ingredient totals; none when the recipe row is
missing (the source propagates that as an error). -/
def recompute_recipe_food (s : DbState) (rid : Int) (now : String) :
    Option DbState :=
  (get_recipe_by_id s.recipes rid).map (fun recipe =>
    let vals := recompute_vals (recipe_ingredient_join s rid) recipe.portions
    let newFoods := s.foods.map (recompute_update vals recipe.food_id now)
    { s with foods := newFoods })

/-- Step 5 of Database::apply_remote_changes for one incoming target:
LWW by day_of_week, incoming wins when strictly newer, when the local day
has no row, or when the incoming carries no updated_at; INSERT OR REPLACE
keyed on day_of_week. -/
def merge_target (now : String) (targets : List TargetRow) (t : ExportTarget) :
    List TargetRow :=
  let localUpdated := (targets.find? (fun r => r.day_of_week == t.day_of_week)).map
    TargetRow.updated_at
  let should : Bool :=
    match t.updated_at, localUpdated with
    | some incoming, some l => decide (l < incoming)
    | some _, none => true
    | none, _ => true
  if should then
    (targets.filter (fun r => ¬ r.day_of_week == t.day_of_week)) ++
      [{ day_of_week := t.day_of_week
         calories := t.calories
         protein_pct := t.protein_pct
         carbs_pct := t.carbs_pct
         fat_pct := t.fat_pct
         updated_at := t.updated_at.getD now }]
  else targets

/-- Database::apply_tombstone: returns whether the delete fired, the new
state, and the recipe ids recorded for recompute after an ingredient
delete. -/
def apply_tombstone (s : DbState) (t : SyncTombstone) :
    Bool × DbState × List Int :=
  if t.table_name = "foods" then
    match get_food_by_uuid s.foods t.uuid with
    | some food =>
        if food.updated_at < t.deleted_at then
          (true, { s with foods := s.foods.filter (fun r => ¬ r.uuid == t.uuid) }, [])
        else (false, s, [])
    | none => (false, s, [])
  else if t.table_name = "meal_entries" then
    match s.meal_entries.find? (fun r => r.uuid == t.uuid) with
    | some row =>
        if row.updated_at < t.deleted_at then
          (true, { s with meal_entries :=
            s.meal_entries.filter (fun r => ¬ r.id == row.id) }, [])
        else (false, s, [])
    | none => (false, s, [])
  else if t.table_name = "recipes" then
    match get_recipe_by_uuid s.recipes t.uuid with
    | some recipe =>
        if recipe.updated_at < t.deleted_at then
          (true, { s with
            recipe_ingredients :=
              s.recipe_ingredients.filter (fun r => ¬ r.recipe_id == recipe.id)
            recipes := s.recipes.filter (fun r => ¬ r.id == recipe.id)
            foods := s.foods.filter (fun f => ¬ f.id == recipe.food_id) }, [])
        else (false, s, [])
    | none => (false, s, [])
  else if t.table_name = "recipe_ingredients" then
    match s.recipe_ingredients.find? (fun r => r.uuid == t.uuid) with
    | some row =>
        if row.updated_at < t.deleted_at then
          (true, { s with recipe_ingredients :=
            s.recipe_ingredients.filter (fun r => ¬ r.id == row.id) },
           [row.recipe_id])
        else (false, s, [])
    | none => (false, s, [])
  else (false, s, [])

/-- The tombstone-persistence half of step 6: store the tombstone unless a
row with the same uuid and table_name is already present. -/
def store_tombstone (ts : List SyncTombstone) (t : SyncTombstone) :
    List SyncTombstone :=
  if ts.any (fun x => x.uuid == t.uuid && x.table_name == t.table_name) then ts
  else ts ++ [t]

/-- One iteration of step 6 of Database::apply_remote_changes: apply the
tombstone (the recompute additions go to a discarded dummy set), then
persist it. -/
def process_tombstone (s : DbState) (t : SyncTombstone) : DbState :=
  let s1 := (apply_tombstone s t).2.1
  { s1 with sync_tombstones := store_tombstone s1.sync_tombstones t }

/-- Step 7 of Database::apply_remote_changes for one incoming weight
entry: LWW keyed by date; note the SET list of the UPDATE includes uuid. -/
def merge_weight_entry (entries : List WeightEntry) (e : ExportWeightEntry) :
    List WeightEntry :=
  if e.uuid = "" then entries
  else
    match entries.find? (fun r => r.date == e.date) with
    | some existing =>
        if existing.updated_at < e.updated_at then
          entries.map (fun r =>
            if r.date == e.date then
              { r with
                  uuid := e.uuid
                  weight_kg := e.weight_kg
                  source := e.source
                  notes := e.notes
                  updated_at := e.updated_at }
            else r)
        else entries
    | none =>
        entries ++ [{ id := next_id (entries.map WeightEntry.id)
                      uuid := e.uuid
                      date := e.date
                      weight_kg := e.weight_kg
                      source := e.source
                      notes := e.notes
                      created_at := e.created_at
                      updated_at := e.updated_at }]

/-- Database::apply_remote_changes: the seven merge steps in their fixed
order, with the recompute pass after step 4.  The single now oracle stands
for the wall clock readings taken during the merge. -/
def apply_remote_changes (s : DbState) (incFoods : List Food)
    (incMeals : List ExportMealEntry) (incRecipes : List ExportRecipe)
    (incIngs : List ExportRecipeIngredient) (incTargets : List ExportTarget)
    (incWeights : List ExportWeightEntry) (incTombs : List SyncTombstone)
    (now : String) : Option DbState :=
  let step1 := incFoods.foldl merge_food_map (s.foods, [])
  let s1 := { s with foods := step1.1 }
  let meals2 := incMeals.foldl (merge_meal_entry s1.foods step1.2) s1.meal_entries
  let s2 := { s1 with meal_entries := meals2 }
  let step3 := incRecipes.foldl (merge_recipe s2.foods step1.2) (s2.recipes, [])
  let s3 := { s2 with recipes := step3.1 }
  let step4 := incIngs.foldl
    (merge_recipe_ingredient s3.foods step1.2 s3.recipes step3.2 now)
    (s3.recipe_ingredients, [])
  let s4 := { s3 with recipe_ingredients := step4.1 }
  (step4.2.foldlM (fun st rid => recompute_recipe_food st rid now) s4).map
    (fun s5 =>
      let targets6 := incTargets.foldl (merge_target now) s5.targets
      let s6 := { s5 with targets := targets6 }
      let s7 := incTombs.foldl process_tombstone s6
      let weights8 := incWeights.foldl merge_weight_entry s7.weight_entries
      { s7 with weight_entries := weights8 })

/-- The push handler push_sync in src/cli/src/server.rs: snapshot the
delta against the client watermark first, then merge the client payload. -/
def push_sync (s : DbState) (req : SyncPushRequest) (ts now : String) :
    SyncPayload × Option DbState :=
  (changes_since s req.since ts,
   apply_remote_changes s req.foods req.meal_entries req.recipes
     req.recipe_ingredients req.targets req.weight_entries req.tombstones now)

theorem filterMap_filter_subset {α β : Type} (l : List α) (p : α → Bool)
    (f : α → Option β) : (l.filter p).filterMap f ⊆ l.filterMap f :=
  ((List.filter_sublist l).filterMap f).subset

/-- C3: the push endpoint computes the returned delta from the pre-merge
store, so every row and tombstone of the response already existed (as a
projection of pre-state rows) before the pushed payload was applied. -/
theorem push_sync_no_echo (s : DbState) (req : SyncPushRequest)
    (ts now : String) :
    (push_sync s req ts now).1 = changes_since s req.since ts ∧
    (push_sync s req ts now).1.foods ⊆ s.foods ∧
    (push_sync s req ts now).1.meal_entries ⊆
      export_meal_entries_where s (fun _ => true) ∧
    (push_sync s req ts now).1.recipes ⊆
      export_recipes_where s (fun _ => true) ∧
    (push_sync s req ts now).1.recipe_ingredients ⊆
      export_recipe_ingredients_where s (fun _ => true) ∧
    (push_sync s req ts now).1.targets ⊆ s.targets.map export_target ∧
    (push_sync s req ts now).1.weight_entries ⊆
      s.weight_entries.map export_weight_entry ∧
    (push_sync s req ts now).1.tombstones ⊆ s.sync_tombstones := by
  refine ⟨rfl, ?_⟩
  cases hs : req.since with
  | none =>
      simp only [push_sync, changes_since, hs]
      refine ⟨List.Subset.refl _, List.Subset.refl _, List.Subset.refl _,
        List.Subset.refl _, List.Subset.refl _, List.Subset.refl _,
        List.Subset.refl _⟩
  | some t =>
      simp only [push_sync, changes_since, hs]
      refine ⟨(List.filter_sublist _).subset, ?_, ?_, ?_, ?_, ?_, (List.filter_sublist _).subset⟩
      · simp only [export_meal_entries_where, List.filter_true]
        exact filterMap_filter_subset _ _ _
      · simp only [export_recipes_where, List.filter_true]
        exact filterMap_filter_subset _ _ _
      · simp only [export_recipe_ingredients_where, List.filter_true]
        exact filterMap_filter_subset _ _ _
      · exact List.map_subset _ (List.filter_sublist _).subset
      · exact List.map_subset _ (List.filter_sublist _).subset

/-- Structural substring test on char lists (the effect of the escaped
LIKE pattern percent-query-percent built by Database::search_foods_local:
after escaping, the pattern matches exactly the literal substrings). -/
def has_substr (hay needle : List Char) : Bool :=
  match hay with
  | [] => needle.isEmpty
  | _ :: t => needle.isPrefixOf hay || has_substr t needle

/-- Case-insensitive LIKE containment (SQLite LIKE is ASCII
case-insensitive). -/
def like_ci (hay needle : String) : Bool :=
  has_substr (hay.toList.map Char.toLower) (needle.toList.map Char.toLower)

/-- Insertion step for ORDER BY name. -/
def insert_by_name (f : Food) : List Food → List Food
  | [] => [f]
  | g :: t => if decide (f.name ≤ g.name) then f :: g :: t else g :: insert_by_name f t

/-- Stable sort for ORDER BY name. -/
def sort_by_name (l : List Food) : List Food :=
  l.foldr insert_by_name []

/-- Database::search_foods_local: case-insensitive substring match on name
or brand, ordered by name, hard limit 20. -/
def search_foods_local (foods : List Food) (q : String) : List Food :=
  (sort_by_name (foods.filter (fun f =>
    like_ci f.name q ||
      (match f.brand with | some b => like_ci b q | none => false)))).take 20

/-- The caching loop of GrubService::search_and_cache: each remote result
is pushed through upsert_food_by_barcode; the oracle functions supply the
wall clock and fresh uuid for the i-th insert.  (The strip-barcode retry
branch of the source only runs when the insert fails on a uniqueness race,
which the sequential model cannot exhibit.) -/
def cache_remote (tbl : List Food) (remote : List NewFood)
    (now uuid : Nat → String) (i : Nat) : List Food × List Food :=
  match remote with
  | [] => ([], tbl)
  | nf :: rest =>
      let r := upsert_food_by_barcode tbl nf (now i) (uuid i)
      let rec' := cache_remote r.2 rest now uuid (i + 1)
      (r.1 :: rec'.1, rec'.2)

/-- GrubService::search_and_cache: local search, then the provider call
(whose outcome is the providerResult argument, an error propagating with
the question-mark operator), then caching and deduplication by local id
with local rows first. -/
def search_and_cache (s : DbState)
    (providerResult : Except String (List NewFood)) (q : String)
    (now uuid : Nat → String) : Except String (List Food × DbState) :=
  let localRes := search_foods_local s.foods q
  match providerResult with
  | .error e => .error e
  | .ok remote =>
      let c := cache_remote s.foods remote now uuid 0
      let seen := localRes.map Food.id
      .ok (localRes ++ c.1.filter (fun f => decide (f.id ∉ seen)),
           { s with foods := c.2 })

/-- The empty store (fresh database). -/
def emptyDb : DbState :=
  { foods := [], meal_entries := [], recipes := [], recipe_ingredients := []
    targets := [], weight_entries := [], sync_tombstones := [] }

/-- C6 counterexample: at a concrete store and query, a failed provider
call makes the whole search fail; it does not succeed with the local
results as the claim states. -/
theorem search_and_cache_failure_counterexample :
    search_and_cache emptyDb (Except.error "timeout") "chicken"
        (fun _ => "T") (fun _ => "u") = Except.error "timeout" ∧
      ∀ res, search_and_cache emptyDb (Except.error "timeout") "chicken"
        (fun _ => "T") (fun _ => "u") ≠ Except.ok res := by
  constructor
  · rfl
  · intro res h
    simp [search_and_cache] at h

/-- C6 amended: a failed provider call propagates as an error from
search_and_cache (the local results are not returned); only a successful
provider call with an empty result list degrades to exactly the local
search results with the store unchanged. -/
theorem search_and_cache_failure_propagates (s : DbState) (q e : String)
    (now uuid : Nat → String) :
    search_and_cache s (Except.error e) q now uuid = Except.error e ∧
    search_and_cache s (Except.ok []) q now uuid =
      Except.ok (search_foods_local s.foods q, s) := by
  constructor
  · rfl
  · simp [search_and_cache, cache_remote]

theorem pair_mem_map_of_preserves {α : Type} (l : List α) (g : α → α)
    (pid : α → Int) (puid : α → String)
    (h : ∀ x ∈ l, pid (g x) = pid x ∧ puid (g x) = puid x)
    (r : α) (hr : r ∈ l) :
    (pid r, puid r) ∈ (l.map g).map (fun x => (pid x, puid x)) := by
  rw [List.map_map]
  refine List.mem_map.mpr ⟨r, hr, ?_⟩
  have hx := h r hr
  simp [Function.comp, hx.1, hx.2]

theorem pair_mem_map_self {α : Type} (l : List α)
    (pid : α → Int) (puid : α → String) (r : α) (hr : r ∈ l) :
    (pid r, puid r) ∈ l.map (fun x => (pid x, puid x)) :=
  List.mem_map.mpr ⟨r, hr, rfl⟩

/-- A stored weight row for the C5 counterexample. -/
def cex5Row : WeightEntry :=
  { id := 1, uuid := "u1", date := "2024-06-15", weight_kg := 80
    source := "manual", notes := none, created_at := "T0", updated_at := "T0" }

/-- An incoming synced weight entry for the same date, different uuid,
newer updated_at. -/
def cex5Inc : ExportWeightEntry :=
  { uuid := "u2", date := "2024-06-15", weight_kg := 81, source := "manual"
    notes := none, created_at := "T1", updated_at := "T1" }

/-- C5 counterexample: the weight-entry LWW merge by date overwrites the
stored row's uuid with the incoming one, so the uuid assigned at insertion
is not preserved by every store operation. -/
theorem weight_merge_changes_uuid_counterexample :
    cex5Row.uuid = "u1" ∧
    (merge_weight_entry [cex5Row] cex5Inc).map WeightEntry.uuid = ["u2"] := by
  refine ⟨rfl, ?_⟩
  have hlt : ("T0" : String) < "T1" := by
    rw [String.lt_iff_toList_lt]
    decide
  simp [merge_weight_entry, cex5Row, cex5Inc, hlt]

/-- C5 amended: every store operation other than the weight LWW merge
preserves the (id, uuid) pairs of existing rows: the food, meal-entry,
recipe and recipe-ingredient merge steps, and upsert_weight.  The weight
LWW merge by date instead adopts the incoming uuid on the matching row
when the incoming updated_at is strictly newer. -/
theorem uuid_stable_except_weight_merge
    (foods : List Food) (incF : Food) (fm : List (String × Int))
    (meals : List MealEntryRow) (incM : ExportMealEntry)
    (recipes : List Recipe) (rm : List (String × Int)) (incR : ExportRecipe)
    (ings : List RecipeIngredientRow) (rcSet : List Int)
    (incI : ExportRecipeIngredient) (now : String)
    (weights : List WeightEntry) (e : NewWeightEntry) (u : String)
    (incW : ExportWeightEntry)
    (hwd : (weights.map WeightEntry.date).Nodup) :
    (∀ r ∈ foods, (r.id, r.uuid) ∈
      (merge_food foods incF).map (fun x => (x.id, x.uuid))) ∧
    (∀ r ∈ meals, (r.id, r.uuid) ∈
      (merge_meal_entry foods fm meals incM).map (fun x => (x.id, x.uuid))) ∧
    (∀ r ∈ recipes, (r.id, r.uuid) ∈
      (merge_recipe foods fm (recipes, rm) incR).1.map (fun x => (x.id, x.uuid))) ∧
    (∀ r ∈ ings, (r.id, r.uuid) ∈
      (merge_recipe_ingredient foods fm recipes rm now (ings, rcSet) incI).1.map
        (fun x => (x.id, x.uuid))) ∧
    (∀ r ∈ weights, (r.id, r.uuid) ∈
      (upsert_weight weights e now u).map (fun x => (x.id, x.uuid))) ∧
    (∀ r ∈ weights, r.date = incW.date → r.updated_at < incW.updated_at →
      incW.uuid ≠ "" →
      (r.id, incW.uuid) ∈
        (merge_weight_entry weights incW).map (fun x => (x.id, x.uuid))) := by
  refine ⟨?_, ?_, ?_, ?_, ?_, ?_⟩
  · intro r hr
    unfold merge_food
    split
    · exact pair_mem_map_self _ _ _ r hr
    · cases hf : get_food_by_uuid foods incF.uuid with
      | some existing =>
          by_cases hlt : existing.updated_at < incF.updated_at
          · simp only [hf, if_pos hlt]
            refine pair_mem_map_of_preserves _ _ _ _ ?_ r hr
            intro x _
            by_cases hux : (x.uuid == incF.uuid) = true <;>
              simp [hux, overwrite_food]
          · simp only [hf, if_neg hlt]
            exact pair_mem_map_self _ _ _ r hr
      | none =>
          simp only [hf]
          exact pair_mem_map_self _ _ _ r (List.mem_append_left _ hr)
  · intro r hr
    unfold merge_meal_entry
    split
    · exact pair_mem_map_self _ _ _ r hr
    · cases hres : resolve_food_uuid fm foods incM.food_uuid with
      | none => exact pair_mem_map_self _ _ _ r hr
      | some food_id =>
          cases hf : meals.find? (fun x => x.uuid == incM.uuid) with
          | some existing =>
              by_cases hlt : existing.updated_at < incM.updated_at
              · simp only [hf, if_pos hlt]
                refine pair_mem_map_of_preserves _ _ _ _ ?_ r hr
                intro x _
                by_cases hux : (x.id == existing.id) = true <;> simp [hux]
              · simp only [hf, if_neg hlt]
                exact pair_mem_map_self _ _ _ r hr
          | none =>
              simp only [hf]
              exact pair_mem_map_self _ _ _ r (List.mem_append_left _ hr)
  · intro r hr
    unfold merge_recipe
    split
    · exact pair_mem_map_self _ _ _ r hr
    · cases hres : resolve_food_uuid fm foods incR.food_uuid with
      | none => exact pair_mem_map_self _ _ _ r hr
      | some food_id =>
          cases hf : get_recipe_by_uuid recipes incR.uuid with
          | some existing =>
              by_cases hlt : existing.updated_at < incR.updated_at
              · simp only [hf, if_pos hlt]
                refine pair_mem_map_of_preserves _ _ _ _ ?_ r hr
                intro x _
                by_cases hux : (x.id == existing.id) = true <;> simp [hux]
              · simp only [hf, if_neg hlt]
                exact pair_mem_map_self _ _ _ r hr
          | none =>
              simp only [hf]
              exact pair_mem_map_self _ _ _ r (List.mem_append_left _ hr)
  · intro r hr
    unfold merge_recipe_ingredient
    split
    · exact pair_mem_map_self _ _ _ r hr
    · cases hres : resolve_recipe_uuid rm recipes incI.recipe_uuid with
      | none =>
          simp only [hres]
          exact pair_mem_map_self _ _ _ r hr
      | some recipe_id =>
          cases hresf : resolve_food_uuid fm foods incI.food_uuid with
          | none =>
              simp only [hres, hresf]
              exact pair_mem_map_self _ _ _ r hr
          | some food_id =>
              simp only [hres, hresf]
              cases hf : ings.find? (fun x => x.uuid == incI.uuid) with
              | some existing =>
                  simp only [hf]
                  refine pair_mem_map_of_preserves _ _ _ _ ?_ r hr
                  intro x _
                  by_cases hux : (x.id == existing.id) = true <;> simp [hux]
              | none =>
                  simp only [hf]
                  exact pair_mem_map_self _ _ _ r (List.mem_append_left _ hr)
  · intro r hr
    unfold upsert_weight
    split
    · refine pair_mem_map_of_preserves _ _ _ _ ?_ r hr
      intro x _
      unfold weight_conflict_update
      split <;> simp
    · exact pair_mem_map_self _ _ _ r (List.mem_append_left _ hr)
  · intro r hr hdate hlt hne
    have hfind : weights.find? (fun x => x.date == incW.date) = some r := by
      cases hf : weights.find? (fun x => x.date == incW.date) with
      | none =>
          exfalso
          have := List.find?_eq_none.mp hf r hr
          simp [hdate] at this
      | some w =>
          have hwmem : w ∈ weights := List.mem_of_find?_eq_some hf
          have hwdate : w.date = incW.date := by
            have := List.find?_some hf
            simpa using this
          have hw : w = r := by
            have hinj := List.inj_on_of_nodup_map hwd
            exact hinj hwmem hr (by rw [hwdate, hdate])
          rw [hw]
    unfold merge_weight_entry
    rw [if_neg hne, hfind]
    dsimp only
    rw [if_pos hlt, List.map_map]
    refine List.mem_map.mpr ⟨r, hr, ?_⟩
    simp [Function.comp, hdate]

/-- A trivial incoming meal entry used only to instantiate witnesses. -/
def witExportMeal0 : ExportMealEntry :=
  { id := 0, uuid := "", date := "", meal_type := "", food_id := 0
    food_uuid := "", serving_g := 0, display_unit := none
    display_quantity := none, created_at := "", updated_at := "" }

/-- A trivial incoming recipe used only to instantiate witnesses. -/
def witExportRecipe0 : ExportRecipe :=
  { id := 0, uuid := "", food_id := 0, food_uuid := "", portions := 1
    created_at := "", updated_at := "" }

/-- A trivial incoming recipe ingredient used only to instantiate
witnesses. -/
def witExportIng0 : ExportRecipeIngredient :=
  { id := 0, uuid := "", recipe_id := 0, recipe_uuid := "", food_id := 0
    food_uuid := "", quantity_g := 0 }

/-- Closed instance of the amended C5 theorem: the matching-date row of a
one-row weight store takes the incoming uuid when the incoming updated_at
is newer. -/
theorem uuid_stable_except_weight_merge_witness :
    (cex5Row.id, "u2") ∈
      (merge_weight_entry [cex5Row] cex5Inc).map (fun x => (x.id, x.uuid)) := by
  have h := uuid_stable_except_weight_merge [] witIncFood []
    [] witExportMeal0 [] [] witExportRecipe0 [] [] witExportIng0 "T"
    [cex5Row] witNewWeight "u9" cex5Inc (by simp)
  exact h.2.2.2.2.2 cex5Row (by simp) rfl
    (by rw [String.lt_iff_toList_lt]; decide) (by decide)

theorem find?_eq_of_mem_nodup {α : Type} (l : List α) (key : α → String)
    (hnd : (l.map key).Nodup) (r : α) (hr : r ∈ l) (k : String)
    (hk : key r = k) : l.find? (fun x => key x == k) = some r := by
  cases hf : l.find? (fun x => key x == k) with
  | none =>
      exfalso
      have := List.find?_eq_none.mp hf r hr
      simp [hk] at this
  | some w =>
      have hwmem := List.mem_of_find?_eq_some hf
      have hwk : key w = k := by
        have := List.find?_some hf
        simpa using this
      have : w = r := List.inj_on_of_nodup_map hnd hwmem hr (by rw [hwk, hk])
      rw [this]

/-- The condition of invariant 7 of the spec, written from the claim:
the tombstone's named table holds a row with its uuid whose updated_at
precedes the tombstone's deleted_at. -/
def tombstone_target_older (s : DbState) (t : SyncTombstone) : Prop :=
  (t.table_name = "foods" ∧
    ∃ f ∈ s.foods, f.uuid = t.uuid ∧ f.updated_at < t.deleted_at) ∨
  (t.table_name = "meal_entries" ∧
    ∃ m ∈ s.meal_entries, m.uuid = t.uuid ∧ m.updated_at < t.deleted_at) ∨
  (t.table_name = "recipes" ∧
    ∃ r ∈ s.recipes, r.uuid = t.uuid ∧ r.updated_at < t.deleted_at) ∨
  (t.table_name = "recipe_ingredients" ∧
    ∃ ri ∈ s.recipe_ingredients, ri.uuid = t.uuid ∧ ri.updated_at < t.deleted_at)

theorem tomb_foods (s : DbState) (t : SyncTombstone)
    (h1 : t.table_name = "foods")
    (hfu : (s.foods.map Food.uuid).Nodup) :
    ((apply_tombstone s t).1 = true ↔
      ∃ f ∈ s.foods, f.uuid = t.uuid ∧ f.updated_at < t.deleted_at) ∧
    (∀ f ∈ s.foods, f.uuid = t.uuid → f.updated_at < t.deleted_at →
      f ∉ (process_tombstone s t).foods) ∧
    (∀ f ∈ s.foods, f.uuid = t.uuid → ¬ f.updated_at < t.deleted_at →
      f ∈ (process_tombstone s t).foods) ∧
    (∀ f ∈ s.foods, f.uuid ≠ t.uuid → f ∈ (process_tombstone s t).foods) := by
  have happ : apply_tombstone s t =
      (match get_food_by_uuid s.foods t.uuid with
       | some food =>
           if food.updated_at < t.deleted_at then
             (true, { s with foods :=
               s.foods.filter (fun r => ¬ r.uuid == t.uuid) }, [])
           else (false, s, [])
       | none => (false, s, [])) := by
    simp [apply_tombstone, h1]
  cases hf : get_food_by_uuid s.foods t.uuid with
  | none =>
      rw [hf] at happ
      dsimp only at happ
      have hnot : ∀ f ∈ s.foods, f.uuid ≠ t.uuid := by
        intro f hfm heq
        have := List.find?_eq_none.mp hf f hfm
        simp [heq] at this
      refine ⟨?_, ?_, ?_, ?_⟩
      · rw [happ]
        refine iff_of_false (by simp) ?_
        rintro ⟨f, hfm, heq, _⟩
        exact hnot f hfm heq
      · intro f hfm heq
        exact absurd heq (hnot f hfm)
      · intro f hfm heq
        exact absurd heq (hnot f hfm)
      · intro f hfm _
        simp [process_tombstone, happ]
        exact hfm
  | some f0 =>
      rw [hf] at happ
      dsimp only at happ
      have hf0mem : f0 ∈ s.foods := List.mem_of_find?_eq_some hf
      have hf0uuid : f0.uuid = t.uuid := by
        have := List.find?_some hf
        simpa using this
      have huniq : ∀ f ∈ s.foods, f.uuid = t.uuid → f = f0 := by
        intro f hfm heq
        exact List.inj_on_of_nodup_map hfu hfm hf0mem (by rw [heq, hf0uuid])
      by_cases hlt : f0.updated_at < t.deleted_at
      · rw [if_pos hlt] at happ
        refine ⟨?_, ?_, ?_, ?_⟩
        · rw [happ]
          exact iff_of_true rfl ⟨f0, hf0mem, hf0uuid, hlt⟩
        · intro f hfm heq _
          simp [process_tombstone, happ, List.mem_filter]
          intro _
          exact heq
        · intro f hfm heq hnlt
          exact absurd hlt ((huniq f hfm heq) ▸ hnlt)
        · intro f hfm hne
          simp [process_tombstone, happ, List.mem_filter]
          exact ⟨hfm, hne⟩
      · rw [if_neg hlt] at happ
        refine ⟨?_, ?_, ?_, ?_⟩
        · rw [happ]
          refine iff_of_false (by simp) ?_
          rintro ⟨f, hfm, heq, hflt⟩
          exact hlt ((huniq f hfm heq) ▸ hflt)
        · intro f hfm heq hflt
          exact absurd ((huniq f hfm heq) ▸ hflt) hlt
        · intro f hfm _ _
          simp [process_tombstone, happ]
          exact hfm
        · intro f hfm _
          simp [process_tombstone, happ]
          exact hfm

theorem tomb_meals (s : DbState) (t : SyncTombstone)
    (h1 : t.table_name = "meal_entries")
    (hmu : (s.meal_entries.map MealEntryRow.uuid).Nodup)
    (hmi : (s.meal_entries.map MealEntryRow.id).Nodup) :
    ((apply_tombstone s t).1 = true ↔
      ∃ m ∈ s.meal_entries, m.uuid = t.uuid ∧ m.updated_at < t.deleted_at) ∧
    (∀ m ∈ s.meal_entries, m.uuid = t.uuid → m.updated_at < t.deleted_at →
      m ∉ (process_tombstone s t).meal_entries) ∧
    (∀ m ∈ s.meal_entries, m.uuid = t.uuid → ¬ m.updated_at < t.deleted_at →
      m ∈ (process_tombstone s t).meal_entries) ∧
    (∀ m ∈ s.meal_entries, m.uuid ≠ t.uuid →
      m ∈ (process_tombstone s t).meal_entries) := by
  have happ : apply_tombstone s t =
      (match s.meal_entries.find? (fun r => r.uuid == t.uuid) with
       | some row =>
           if row.updated_at < t.deleted_at then
             (true, { s with meal_entries :=
               s.meal_entries.filter (fun r => ¬ r.id == row.id) }, [])
           else (false, s, [])
       | none => (false, s, [])) := by
    simp [apply_tombstone, h1]
  cases hf : s.meal_entries.find? (fun r => r.uuid == t.uuid) with
  | none =>
      rw [hf] at happ
      dsimp only at happ
      have hnot : ∀ m ∈ s.meal_entries, m.uuid ≠ t.uuid := by
        intro m hm heq
        have := List.find?_eq_none.mp hf m hm
        simp [heq] at this
      refine ⟨?_, ?_, ?_, ?_⟩
      · rw [happ]
        refine iff_of_false (by simp) ?_
        rintro ⟨m, hm, heq, _⟩
        exact hnot m hm heq
      · intro m hm heq
        exact absurd heq (hnot m hm)
      · intro m hm heq
        exact absurd heq (hnot m hm)
      · intro m hm _
        simp [process_tombstone, happ]
        exact hm
  | some m0 =>
      rw [hf] at happ
      dsimp only at happ
      have hm0mem : m0 ∈ s.meal_entries := List.mem_of_find?_eq_some hf
      have hm0uuid : m0.uuid = t.uuid := by
        have := List.find?_some hf
        simpa using this
      have huniq : ∀ m ∈ s.meal_entries, m.uuid = t.uuid → m = m0 := by
        intro m hm heq
        exact List.inj_on_of_nodup_map hmu hm hm0mem (by rw [heq, hm0uuid])
      by_cases hlt : m0.updated_at < t.deleted_at
      · rw [if_pos hlt] at happ
        refine ⟨?_, ?_, ?_, ?_⟩
        · rw [happ]
          exact iff_of_true rfl ⟨m0, hm0mem, hm0uuid, hlt⟩
        · intro m hm heq _
          have hmm := huniq m hm heq
          simp [process_tombstone, happ, List.mem_filter]
          intro _
          rw [hmm]
        · intro m hm heq hnlt
          exact absurd hlt ((huniq m hm heq) ▸ hnlt)
        · intro m hm hne
          have hid : m.id ≠ m0.id := by
            intro hid
            exact hne ((List.inj_on_of_nodup_map hmi hm hm0mem hid) ▸ hm0uuid)
          simp [process_tombstone, happ, List.mem_filter]
          exact ⟨hm, hid⟩
      · rw [if_neg hlt] at happ
        refine ⟨?_, ?_, ?_, ?_⟩
        · rw [happ]
          refine iff_of_false (by simp) ?_
          rintro ⟨m, hm, heq, hmlt⟩
          exact hlt ((huniq m hm heq) ▸ hmlt)
        · intro m hm heq hmlt
          exact absurd ((huniq m hm heq) ▸ hmlt) hlt
        · intro m hm _ _
          simp [process_tombstone, happ]
          exact hm
        · intro m hm _
          simp [process_tombstone, happ]
          exact hm

theorem tomb_ings (s : DbState) (t : SyncTombstone)
    (h1 : t.table_name = "recipe_ingredients")
    (hiu : (s.recipe_ingredients.map RecipeIngredientRow.uuid).Nodup) :
    ((apply_tombstone s t).1 = true ↔
      ∃ ri ∈ s.recipe_ingredients, ri.uuid = t.uuid ∧
        ri.updated_at < t.deleted_at) ∧
    (∀ ri ∈ s.recipe_ingredients, ri.uuid = t.uuid →
      ri.updated_at < t.deleted_at →
      ri ∉ (process_tombstone s t).recipe_ingredients) ∧
    (∀ ri ∈ s.recipe_ingredients, ri.uuid = t.uuid →
      ¬ ri.updated_at < t.deleted_at →
      ri ∈ (process_tombstone s t).recipe_ingredients) := by
  have happ : apply_tombstone s t =
      (match s.recipe_ingredients.find? (fun r => r.uuid == t.uuid) with
       | some row =>
           if row.updated_at < t.deleted_at then
             (true, { s with recipe_ingredients :=
               s.recipe_ingredients.filter (fun r => ¬ r.id == row.id) },
              [row.recipe_id])
           else (false, s, [])
       | none => (false, s, [])) := by
    simp [apply_tombstone, h1]
  cases hf : s.recipe_ingredients.find? (fun r => r.uuid == t.uuid) with
  | none =>
      rw [hf] at happ
      dsimp only at happ
      have hnot : ∀ ri ∈ s.recipe_ingredients, ri.uuid ≠ t.uuid := by
        intro ri hri heq
        have := List.find?_eq_none.mp hf ri hri
        simp [heq] at this
      refine ⟨?_, ?_, ?_⟩
      · rw [happ]
        refine iff_of_false (by simp) ?_
        rintro ⟨ri, hri, heq, _⟩
        exact hnot ri hri heq
      · intro ri hri heq
        exact absurd heq (hnot ri hri)
      · intro ri hri heq
        exact absurd heq (hnot ri hri)
  | some r0 =>
      rw [hf] at happ
      dsimp only at happ
      have hr0mem : r0 ∈ s.recipe_ingredients := List.mem_of_find?_eq_some hf
      have hr0uuid : r0.uuid = t.uuid := by
        have := List.find?_some hf
        simpa using this
      have huniq : ∀ ri ∈ s.recipe_ingredients, ri.uuid = t.uuid → ri = r0 := by
        intro ri hri heq
        exact List.inj_on_of_nodup_map hiu hri hr0mem (by rw [heq, hr0uuid])
      by_cases hlt : r0.updated_at < t.deleted_at
      · rw [if_pos hlt] at happ
        refine ⟨?_, ?_, ?_⟩
        · rw [happ]
          exact iff_of_true rfl ⟨r0, hr0mem, hr0uuid, hlt⟩
        · intro ri hri heq _
          have hrr := huniq ri hri heq
          simp [process_tombstone, happ, List.mem_filter]
          intro _
          rw [hrr]
        · intro ri hri heq hnlt
          exact absurd hlt ((huniq ri hri heq) ▸ hnlt)
      · rw [if_neg hlt] at happ
        refine ⟨?_, ?_, ?_⟩
        · rw [happ]
          refine iff_of_false (by simp) ?_
          rintro ⟨ri, hri, heq, hrlt⟩
          exact hlt ((huniq ri hri heq) ▸ hrlt)
        · intro ri hri heq hrlt
          exact absurd ((huniq ri hri heq) ▸ hrlt) hlt
        · intro ri hri _ _
          simp [process_tombstone, happ]
          exact hri

theorem tomb_recipes (s : DbState) (t : SyncTombstone)
    (h1 : t.table_name = "recipes")
    (hru : (s.recipes.map Recipe.uuid).Nodup) :
    ((apply_tombstone s t).1 = true ↔
      ∃ r ∈ s.recipes, r.uuid = t.uuid ∧ r.updated_at < t.deleted_at) ∧
    (∀ r ∈ s.recipes, r.uuid = t.uuid →
      (r.updated_at < t.deleted_at →
        r ∉ (process_tombstone s t).recipes ∧
        (∀ ri ∈ s.recipe_ingredients, ri.recipe_id = r.id →
          ri ∉ (process_tombstone s t).recipe_ingredients) ∧
        (∀ f ∈ s.foods, f.id = r.food_id →
          f ∉ (process_tombstone s t).foods)) ∧
      (¬ r.updated_at < t.deleted_at →
        r ∈ (process_tombstone s t).recipes)) := by
  have happ : apply_tombstone s t =
      (match get_recipe_by_uuid s.recipes t.uuid with
       | some recipe =>
           if recipe.updated_at < t.deleted_at then
             (true, { s with
               recipe_ingredients := s.recipe_ingredients.filter
                 (fun r => ¬ r.recipe_id == recipe.id)
               recipes := s.recipes.filter (fun r => ¬ r.id == recipe.id)
               foods := s.foods.filter (fun f => ¬ f.id == recipe.food_id) },
              [])
           else (false, s, [])
       | none => (false, s, [])) := by
    simp [apply_tombstone, h1]
  cases hf : get_recipe_by_uuid s.recipes t.uuid with
  | none =>
      rw [hf] at happ
      dsimp only at happ
      have hnot : ∀ r ∈ s.recipes, r.uuid ≠ t.uuid := by
        intro r hr heq
        have := List.find?_eq_none.mp hf r hr
        simp [heq] at this
      refine ⟨?_, ?_⟩
      · rw [happ]
        refine iff_of_false (by simp) ?_
        rintro ⟨r, hr, heq, _⟩
        exact hnot r hr heq
      · intro r hr heq
        exact absurd heq (hnot r hr)
  | some r0 =>
      rw [hf] at happ
      dsimp only at happ
      have hr0mem : r0 ∈ s.recipes := List.mem_of_find?_eq_some hf
      have hr0uuid : r0.uuid = t.uuid := by
        have := List.find?_some hf
        simpa using this
      have huniq : ∀ r ∈ s.recipes, r.uuid = t.uuid → r = r0 := by
        intro r hr heq
        exact List.inj_on_of_nodup_map hru hr hr0mem (by rw [heq, hr0uuid])
      by_cases hlt : r0.updated_at < t.deleted_at
      · rw [if_pos hlt] at happ
        refine ⟨?_, ?_⟩
        · rw [happ]
          exact iff_of_true rfl ⟨r0, hr0mem, hr0uuid, hlt⟩
        · intro r hr heq
          have hrr := huniq r hr heq
          subst hrr
          refine ⟨fun _ => ⟨?_, ?_, ?_⟩, fun hn => absurd hlt hn⟩
          · simp [process_tombstone, happ, List.mem_filter]
          · intro ri _ hrid
            simp [process_tombstone, happ, List.mem_filter]
            intro _
            rw [hrid]
          · intro f _ hfid
            simp [process_tombstone, happ, List.mem_filter]
            intro _
            rw [hfid]
      · rw [if_neg hlt] at happ
        refine ⟨?_, ?_⟩
        · rw [happ]
          refine iff_of_false (by simp) ?_
          rintro ⟨r, hr, heq, hrlt⟩
          exact hlt ((huniq r hr heq) ▸ hrlt)
        · intro r hr heq
          refine ⟨fun hrlt => absurd ((huniq r hr heq) ▸ hrlt) hlt, fun _ => ?_⟩
          simp [process_tombstone, happ]
          exact hr

theorem tomb_store (s : DbState) (t : SyncTombstone) :
    (∃ x ∈ (process_tombstone s t).sync_tombstones,
      x.uuid = t.uuid ∧ x.table_name = t.table_name) ∧
    (∀ x ∈ s.sync_tombstones, x ∈ (process_tombstone s t).sync_tombstones) := by
  have hsame : (apply_tombstone s t).2.1.sync_tombstones = s.sync_tombstones := by
    unfold apply_tombstone
    repeat' split
    all_goals rfl
  constructor
  · unfold process_tombstone
    dsimp only
    rw [hsame]
    unfold store_tombstone
    cases hany : s.sync_tombstones.any
        (fun x => x.uuid == t.uuid && x.table_name == t.table_name) with
    | true =>
        rw [if_pos rfl]
        obtain ⟨x, hx, hxp⟩ := List.any_eq_true.mp hany
        refine ⟨x, hx, ?_, ?_⟩
        · have := (Bool.and_eq_true _ _).mp hxp
          simpa using this.1
        · have := (Bool.and_eq_true _ _).mp hxp
          simpa using this.2
    | false =>
        rw [if_neg (by simp)]
        exact ⟨t, by simp, rfl, rfl⟩
  · intro x hx
    unfold process_tombstone
    dsimp only
    rw [hsame]
    unfold store_tombstone
    split
    · exact hx
    · exact List.mem_append_left _ hx

theorem tomb_other (s : DbState) (t : SyncTombstone)
    (h1 : t.table_name ≠ "foods") (h2 : t.table_name ≠ "meal_entries")
    (h3 : t.table_name ≠ "recipes")
    (h4 : t.table_name ≠ "recipe_ingredients") :
    (apply_tombstone s t).1 = false := by
  simp [apply_tombstone, h1, h2, h3, h4]

/-- C2: a tombstone deletes its target iff the target exists and its
updated_at precedes deleted_at; a recipe tombstone also removes the
recipe's ingredients and virtual food; and whether or not the delete
fired, the tombstone is persisted (unless already stored) together with
all previously stored tombstones. -/
theorem apply_tombstone_spec (s : DbState) (t : SyncTombstone)
    (hfu : (s.foods.map Food.uuid).Nodup)
    (hmu : (s.meal_entries.map MealEntryRow.uuid).Nodup)
    (hmi : (s.meal_entries.map MealEntryRow.id).Nodup)
    (hru : (s.recipes.map Recipe.uuid).Nodup)
    (hiu : (s.recipe_ingredients.map RecipeIngredientRow.uuid).Nodup) :
    ((apply_tombstone s t).1 = true ↔ tombstone_target_older s t) ∧
    (t.table_name = "foods" →
      (∀ f ∈ s.foods, f.uuid = t.uuid → f.updated_at < t.deleted_at →
        f ∉ (process_tombstone s t).foods) ∧
      (∀ f ∈ s.foods, f.uuid = t.uuid → ¬ f.updated_at < t.deleted_at →
        f ∈ (process_tombstone s t).foods) ∧
      (∀ f ∈ s.foods, f.uuid ≠ t.uuid → f ∈ (process_tombstone s t).foods)) ∧
    (t.table_name = "meal_entries" →
      (∀ m ∈ s.meal_entries, m.uuid = t.uuid → m.updated_at < t.deleted_at →
        m ∉ (process_tombstone s t).meal_entries) ∧
      (∀ m ∈ s.meal_entries, m.uuid = t.uuid → ¬ m.updated_at < t.deleted_at →
        m ∈ (process_tombstone s t).meal_entries) ∧
      (∀ m ∈ s.meal_entries, m.uuid ≠ t.uuid →
        m ∈ (process_tombstone s t).meal_entries)) ∧
    (t.table_name = "recipes" →
      ∀ r ∈ s.recipes, r.uuid = t.uuid →
        (r.updated_at < t.deleted_at →
          r ∉ (process_tombstone s t).recipes ∧
          (∀ ri ∈ s.recipe_ingredients, ri.recipe_id = r.id →
            ri ∉ (process_tombstone s t).recipe_ingredients) ∧
          (∀ f ∈ s.foods, f.id = r.food_id →
            f ∉ (process_tombstone s t).foods)) ∧
        (¬ r.updated_at < t.deleted_at →
          r ∈ (process_tombstone s t).recipes)) ∧
    (t.table_name = "recipe_ingredients" →
      (∀ ri ∈ s.recipe_ingredients, ri.uuid = t.uuid →
        ri.updated_at < t.deleted_at →
        ri ∉ (process_tombstone s t).recipe_ingredients) ∧
      (∀ ri ∈ s.recipe_ingredients, ri.uuid = t.uuid →
        ¬ ri.updated_at < t.deleted_at →
        ri ∈ (process_tombstone s t).recipe_ingredients)) ∧
    ((∃ x ∈ (process_tombstone s t).sync_tombstones,
        x.uuid = t.uuid ∧ x.table_name = t.table_name) ∧
      (∀ x ∈ s.sync_tombstones, x ∈ (process_tombstone s t).sync_tombstones)) := by
  refine ⟨?_, ?_, ?_, ?_, ?_, tomb_store s t⟩
  · by_cases h1 : t.table_name = "foods"
    · rw [(tomb_foods s t h1 hfu).1]
      unfold tombstone_target_older
      rw [h1]
      simp
    · by_cases h2 : t.table_name = "meal_entries"
      · rw [(tomb_meals s t h2 hmu hmi).1]
        unfold tombstone_target_older
        rw [h2]
        simp
      · by_cases h3 : t.table_name = "recipes"
        · rw [(tomb_recipes s t h3 hru).1]
          unfold tombstone_target_older
          rw [h3]
          simp
        · by_cases h4 : t.table_name = "recipe_ingredients"
          · rw [(tomb_ings s t h4 hiu).1]
            unfold tombstone_target_older
            rw [h4]
            simp
          · rw [tomb_other s t h1 h2 h3 h4]
            refine iff_of_false (by simp) ?_
            unfold tombstone_target_older
            rintro (⟨h, _⟩ | ⟨h, _⟩ | ⟨h, _⟩ | ⟨h, _⟩)
            · exact h1 h
            · exact h2 h
            · exact h3 h
            · exact h4 h
  · intro h1
    exact (tomb_foods s t h1 hfu).2
  · intro h2
    exact (tomb_meals s t h2 hmu hmi).2
  · intro h3
    exact (tomb_recipes s t h3 hru).2
  · intro h4
    exact (tomb_ings s t h4 hiu).2

/-- A concrete stored food targeted by a tombstone in witnesses. -/
def cex2Food : Food :=
  { id := 1, name := "Old", brand := none, barcode := none
    calories_per_100g := 10, protein_per_100g := none, carbs_per_100g := none
    fat_per_100g := none, default_serving_g := none, source := "user"
    created_at := "T0", uuid := "u-f", updated_at := "T0" }

/-- A one-food store for the tombstone witness. -/
def cex2State : DbState :=
  { emptyDb with foods := [cex2Food] }

/-- A tombstone newer than the stored food. -/
def cex2Tomb : SyncTombstone :=
  { uuid := "u-f", table_name := "foods", deleted_at := "T1" }

/-- Closed instance of the C2 theorem: the newer tombstone fires, the food
disappears, and the tombstone is persisted. -/
theorem apply_tombstone_spec_witness :
    (apply_tombstone cex2State cex2Tomb).1 = true ∧
    cex2Food ∉ (process_tombstone cex2State cex2Tomb).foods ∧
    ∃ x ∈ (process_tombstone cex2State cex2Tomb).sync_tombstones,
      x.uuid = cex2Tomb.uuid ∧ x.table_name = cex2Tomb.table_name := by
  have hlt : cex2Food.updated_at < cex2Tomb.deleted_at := by
    show ("T0" : String) < "T1"
    rw [String.lt_iff_toList_lt]
    decide
  have h := apply_tombstone_spec cex2State cex2Tomb
    (by simp [cex2State, emptyDb]) (by simp [cex2State, emptyDb])
    (by simp [cex2State, emptyDb]) (by simp [cex2State, emptyDb])
    (by simp [cex2State, emptyDb])
  refine ⟨?_, ?_, ?_⟩
  · exact h.1.mpr (Or.inl ⟨rfl, cex2Food, by simp [cex2State], rfl, hlt⟩)
  · exact (h.2.1 rfl).1 cex2Food (by simp [cex2State]) rfl hlt
  · exact h.2.2.2.2.2.1

/-- The walk of Database::get_logging_streak over the distinct logged
dates in descending order: extend the streak while the next date equals
start_date minus the streak so far, stop at the first mismatch.  Civil
dates are modelled as day numbers; equality and order of their YYYY-MM-DD
strings coincide with equality and order of day numbers. -/
def streak_loop (start : Int) : List Int → Int → Int
  | [], streak => streak
  | d :: rest, streak =>
      if d = start - streak then streak_loop start rest (streak + 1) else streak

/-- Database::get_logging_streak on the SELECT DISTINCT date ... ORDER BY
date DESC result: 0 when empty; walk from today when the first (latest)
date is today, from yesterday when it is yesterday, else 0. -/
def get_logging_streak (dates : List Int) (today : Int) : Int :=
  if dates = [] then 0
  else if dates.head? = some today then streak_loop today dates 0
  else if dates.head? = some (today - 1) then streak_loop (today - 1) dates 0
  else 0

/-- Length of the run of consecutive days with entries counting backward
from start (fuelled; any fuel above the number of distinct dates is
enough). -/
def run_len (dates : List Int) : Int → Nat → Nat
  | _, 0 => 0
  | start, n + 1 =>
      if start ∈ dates then run_len dates (start - 1) n + 1 else 0

/-- The streak as the claim words it: count consecutive days with at least
one entry counting backward from today if today has entries, else from
today minus one; 0 when neither has entries. -/
def spec_streak (dates : List Int) (today : Int) : Int :=
  if today ∈ dates then (run_len dates today (dates.length + 1) : Int)
  else if (today - 1) ∈ dates then
    (run_len dates (today - 1) (dates.length + 1) : Int)
  else 0

theorem streak_loop_shift (l : List Int) : ∀ (start k : Int),
    streak_loop start l k = k + streak_loop (start - k) l 0 := by
  induction l with
  | nil => intro start k; simp [streak_loop]
  | cons d rest ih =>
      intro start k
      show (if d = start - k then streak_loop start rest (k + 1) else k) =
        k + (if d = start - k - 0 then streak_loop (start - k) rest (0 + 1) else 0)
      rw [sub_zero]
      by_cases hd : d = start - k
      · rw [if_pos hd, if_pos hd, ih start (k + 1), ih (start - k) (0 + 1)]
        have h1 : start - (k + 1) = start - k - (0 + 1) := by ring
        rw [h1]
        ring
      · rw [if_neg hd, if_neg hd]
        ring

theorem run_len_drop_head (d : Int) (rest : List Int) : ∀ (n : Nat) (x : Int),
    x < d → run_len (d :: rest) x n = run_len rest x n := by
  intro n
  induction n with
  | zero => intro x _; rfl
  | succ n ih =>
      intro x hx
      show (if x ∈ d :: rest then run_len (d :: rest) (x - 1) n + 1 else 0) =
        (if x ∈ rest then run_len rest (x - 1) n + 1 else 0)
      have hmem : (x ∈ d :: rest) ↔ x ∈ rest := by
        constructor
        · intro h
          rcases List.mem_cons.mp h with h | h
          · omega
          · exact h
        · exact fun h => List.mem_cons_of_mem _ h
      rw [ih (x - 1) (by omega)]
      by_cases hin : x ∈ rest
      · rw [if_pos (hmem.mpr hin), if_pos hin]
      · rw [if_neg (fun h => hin (hmem.mp h)), if_neg hin]

theorem streak_eq_run : ∀ (l : List Int) (start : Int),
    l.Pairwise (· > ·) → (∀ y ∈ l, y ≤ start) →
    streak_loop start l 0 = (run_len l start (l.length + 1) : Int) := by
  intro l
  induction l with
  | nil => intro start _ _; simp [streak_loop, run_len]
  | cons d rest ih =>
      intro start hp hle
      have hpc := List.pairwise_cons.mp hp
      by_cases hd : d = start
      · have h1 : streak_loop start (d :: rest) 0 = streak_loop start rest 1 := by
          show (if d = start - 0 then streak_loop start rest (0 + 1) else 0) = _
          rw [if_pos (by omega)]
          norm_num
        have hle' : ∀ y ∈ rest, y ≤ start - 1 := by
          intro y hy
          have := hpc.1 y hy
          omega
        rw [h1, streak_loop_shift rest start 1, ih (start - 1) hpc.2 hle']
        have h2 : run_len (d :: rest) start ((d :: rest).length + 1) =
            run_len rest (start - 1) (rest.length + 1) + 1 := by
          show (if start ∈ d :: rest then
              run_len (d :: rest) (start - 1) (rest.length + 1) + 1 else 0) = _
          rw [if_pos (by rw [← hd]; exact List.mem_cons_self d rest),
            run_len_drop_head d rest _ (start - 1) (by omega)]
        rw [h2]
        push_cast
        ring
      · have hdlt : d < start := lt_of_le_of_ne (hle d (List.mem_cons_self d rest)) hd
        have hnotin : start ∉ d :: rest := by
          intro hmem
          rcases List.mem_cons.mp hmem with h | h
          · omega
          · have := hpc.1 start h
            omega
        have h1 : streak_loop start (d :: rest) 0 = 0 := by
          show (if d = start - 0 then streak_loop start rest (0 + 1) else 0) = 0
          rw [if_neg (by omega)]
        have h2 : run_len (d :: rest) start ((d :: rest).length + 1) = 0 := by
          show (if start ∈ d :: rest then
              run_len (d :: rest) (start - 1) (rest.length + 1) + 1 else 0) = 0
          rw [if_neg hnotin]
        rw [h1, h2]
        rfl

/-- C9 counterexample: with entries logged for today and for tomorrow
(days 10 and 11, today = 10), today has an entry, so the claim says the
streak is the 1-day run from today; the code keys on the latest logged
date being today or yesterday and returns 0. -/
theorem get_logging_streak_counterexample :
    get_logging_streak [11, 10] 10 = 0 ∧ (10 : Int) ∈ [11, 10] ∧
      spec_streak [11, 10] 10 = 1 := by
  refine ⟨?_, by decide, ?_⟩ <;> decide

/-- C9 amended: provided no meal entry is dated after today, the streak
equals the count of consecutive days with entries, counting backward from
today if today has entries else from today minus one, and 0 when neither
has entries.  (Without that proviso the code keys on the latest logged
date being today or yesterday.) -/
theorem get_logging_streak_eq_spec (dates : List Int) (today : Int)
    (hs : dates.Pairwise (· > ·)) (hle : ∀ d ∈ dates, d ≤ today) :
    get_logging_streak dates today = spec_streak dates today := by
  cases dates with
  | nil => simp [get_logging_streak, spec_streak, run_len]
  | cons d rest =>
      have hpc := List.pairwise_cons.mp hs
      by_cases h1 : d = today
      · have hmem : today ∈ d :: rest := by rw [← h1]; exact List.mem_cons_self d rest
        have hcode : get_logging_streak (d :: rest) today =
            streak_loop today (d :: rest) 0 := by
          simp [get_logging_streak, h1]
        rw [hcode, spec_streak, if_pos hmem]
        exact streak_eq_run (d :: rest) today hs hle
      · have hdlt : d < today :=
          lt_of_le_of_ne (hle d (List.mem_cons_self d rest)) h1
        have hnotin : today ∉ d :: rest := by
          intro hmem
          rcases List.mem_cons.mp hmem with h | h
          · omega
          · have := hpc.1 today h
            omega
        by_cases h2 : d = today - 1
        · have hmem : today - 1 ∈ d :: rest := by
            rw [← h2]; exact List.mem_cons_self d rest
          have hcode : get_logging_streak (d :: rest) today =
              streak_loop (today - 1) (d :: rest) 0 := by
            simp [get_logging_streak, h1, h2]
          rw [hcode, spec_streak, if_neg hnotin, if_pos hmem]
          refine streak_eq_run (d :: rest) (today - 1) hs ?_
          intro y hy
          rcases List.mem_cons.mp hy with h | h
          · omega
          · have := hpc.1 y h
            omega
        · have hnotin2 : today - 1 ∉ d :: rest := by
            intro hmem
            rcases List.mem_cons.mp hmem with h | h
            · omega
            · have := hpc.1 (today - 1) h
              omega
          have hcode : get_logging_streak (d :: rest) today = 0 := by
            simp [get_logging_streak, h1, h2]
          rw [hcode, spec_streak, if_neg hnotin, if_neg hnotin2]

/-- Closed instance of the amended C9 theorem: a 2-day streak ending
today. -/
theorem get_logging_streak_eq_spec_witness :
    get_logging_streak [10, 9, 7] 10 = spec_streak [10, 9, 7] 10 :=
  get_logging_streak_eq_spec [10, 9, 7] 10 (by decide) (by decide)

/-- The pre-migration-4 singleton target row (id-keyed layout). -/
structure LegacyTarget where
  id : Int
  calories : Int
  protein_pct : Option Int
  carbs_pct : Option Int
  fat_pct : Option Int
  updated_at : String
  deriving Repr, DecidableEq

/-- Schema-level view of the database file for Database::migrate: the
user_version pragma, one flag per table group created by a migration, and
the targets data moved by migration 4.  (Migration 2 also backfills
uuid/updated_at on existing rows; that per-row effect is summarized by the
uuid_columns flag, which is all the idempotence argument uses: the guard
skips the whole migration when the version is already at or above it.) -/
structure MigDb where
  user_version : Int
  base_tables : Bool
  uuid_columns : Bool
  display_columns : Bool
  targets_old_layout : Bool
  legacy_targets : List LegacyTarget
  targets : List TargetRow
  weight_table : Bool
  settings_table : Bool
  deriving Repr, DecidableEq

/-- Expansion of the singleton target (WHERE t.id = 1) into seven per-day
rows, as migration 4's INSERT OR IGNORE ... SELECT does. -/
def expand_legacy_target (l : List LegacyTarget) : List TargetRow :=
  match l.find? (fun t => t.id == 1) with
  | some t =>
      ([0, 1, 2, 3, 4, 5, 6] : List Int).map (fun day =>
        { day_of_week := day
          calories := t.calories
          protein_pct := t.protein_pct
          carbs_pct := t.carbs_pct
          fat_pct := t.fat_pct
          updated_at := t.updated_at })
  | none => []

/-- The k-th numbered migration of Database::migrate; each sets
user_version to k as its last statement. -/
def migration_step (k : Nat) (s : MigDb) : MigDb :=
  match k with
  | 1 => { s with base_tables := true, targets_old_layout := true, user_version := 1 }
  | 2 => { s with uuid_columns := true, user_version := 2 }
  | 3 => { s with display_columns := true, user_version := 3 }
  | 4 =>
      if s.targets_old_layout then
        { s with
            targets_old_layout := false
            targets := expand_legacy_target s.legacy_targets
            legacy_targets := []
            user_version := 4 }
      else { s with user_version := 4 }
  | 5 => { s with weight_table := true, user_version := 5 }
  | 6 => { s with settings_table := true, user_version := 6 }
  | _ => s

/-- Database::migrate: read user_version once, then run each numbered
migration whose number is above it, in order.  Besides the final state it
returns the list of migration numbers whose statements were executed. -/
def migrate (s : MigDb) : MigDb × List Nat :=
  let v0 := s.user_version
  let s1 := if v0 < 1 then migration_step 1 s else s
  let s2 := if v0 < 2 then migration_step 2 s1 else s1
  let s3 := if v0 < 3 then migration_step 3 s2 else s2
  let s4 := if v0 < 4 then migration_step 4 s3 else s3
  let s5 := if v0 < 5 then migration_step 5 s4 else s4
  let s6 := if v0 < 6 then migration_step 6 s5 else s5
  (s6, ([1, 2, 3, 4, 5, 6] : List Nat).filter (fun k => v0 < (k : Int)))

theorem migration_step_6_version (s : MigDb) :
    (migration_step 6 s).user_version = 6 := rfl

theorem migrate_noop (s : MigDb) (h : 6 ≤ s.user_version) :
    migrate s = (s, []) := by
  have c1 : ¬ s.user_version < 1 := by omega
  have c2 : ¬ s.user_version < 2 := by omega
  have c3 : ¬ s.user_version < 3 := by omega
  have c4 : ¬ s.user_version < 4 := by omega
  have c5 : ¬ s.user_version < 5 := by omega
  have c6 : ¬ s.user_version < 6 := by omega
  unfold migrate
  dsimp only
  rw [if_neg c1, if_neg c2, if_neg c3, if_neg c4, if_neg c5, if_neg c6]
  simp [c1, c2, c3, c4, c5, c6]

theorem migrate_version_ge (s : MigDb) : 6 ≤ (migrate s).1.user_version := by
  unfold migrate
  dsimp only
  by_cases h6 : s.user_version < 6
  · rw [if_pos h6, migration_step_6_version]
  · rw [if_neg h6, if_neg (by omega), if_neg (by omega), if_neg (by omega),
      if_neg (by omega), if_neg (by omega)]
    omega

/-- C8: the migrator is idempotent.  A migration's statements run only
when the stored version is strictly below its number, so a database at
version N ≥ k executes nothing of migration k; in particular a second
migrate run executes no statements at all and leaves the store
identical. -/
theorem migrate_idempotent (s : MigDb) :
    (∀ k ∈ (migrate s).2, s.user_version < (k : Int)) ∧
    (∀ k : Nat, 1 ≤ k → k ≤ 6 → (k : Int) ≤ s.user_version →
      k ∉ (migrate s).2) ∧
    (migrate (migrate s).1).1 = (migrate s).1 ∧
    (migrate (migrate s).1).2 = [] := by
  have hnoop := migrate_noop (migrate s).1 (migrate_version_ge s)
  refine ⟨?_, ?_, by rw [hnoop], by rw [hnoop]⟩
  · intro k hk
    have : k ∈ ([1, 2, 3, 4, 5, 6] : List Nat) ∧
        decide (s.user_version < (k : Int)) = true := by
      simpa using List.mem_filter.mp hk
    exact of_decide_eq_true this.2
  · intro k _ _ hge hk
    have : k ∈ ([1, 2, 3, 4, 5, 6] : List Nat) ∧
        decide (s.user_version < (k : Int)) = true := by
      simpa using List.mem_filter.mp hk
    have := of_decide_eq_true this.2
    omega

/-- A database file already migrated to version 3, used by witnesses. -/
def witMigDb : MigDb :=
  { user_version := 3, base_tables := true, uuid_columns := true
    display_columns := true, targets_old_layout := true, legacy_targets := []
    targets := [], weight_table := false, settings_table := false }

/-- Closed instance of the C8 theorem at a database already at version 3:
migration 3 does not run again, and a repeat run changes nothing. -/
theorem migrate_idempotent_witness :
    (3 : Nat) ∉ (migrate witMigDb).2 ∧
      (migrate (migrate witMigDb).1).1 = (migrate witMigDb).1 :=
  ⟨(migrate_idempotent witMigDb).2.1 3 (by decide) (by decide) (by decide),
   (migrate_idempotent witMigDb).2.2.1⟩

/-- Database::add_recipe_ingredient: insert the ingredient row (fresh
rowid and uuid, updated_at = now), then recompute the virtual food. -/
def add_recipe_ingredient (s : DbState) (recipe_id food_id : Int)
    (quantity_g : ℚ) (now uuid : String) :
    Option (RecipeIngredientRow × DbState) :=
  let ri : RecipeIngredientRow :=
    { id := next_id (s.recipe_ingredients.map RecipeIngredientRow.id)
      recipe_id := recipe_id
      food_id := food_id
      quantity_g := quantity_g
      uuid := uuid
      updated_at := now }
  let s1 := { s with recipe_ingredients := s.recipe_ingredients ++ [ri] }
  (recompute_recipe_food s1 recipe_id now).map (fun s2 => (ri, s2))

/-- Case-insensitive name equality, as LOWER(name) = LOWER(?2). -/
def lower_eq (a b : String) : Bool :=
  a.toList.map Char.toLower == b.toList.map Char.toLower

/-- Database::remove_recipe_ingredient: DELETE the recipe's ingredient
rows whose food has the given name (case-insensitive); when any row was
deleted, recompute the virtual food.  Returns whether a row was deleted. -/
def remove_recipe_ingredient (s : DbState) (recipe_id : Int)
    (food_name : String) (now : String) : Option (Bool × DbState) :=
  let hit : RecipeIngredientRow → Bool := fun ri =>
    ri.recipe_id == recipe_id &&
      s.foods.any (fun f => f.id == ri.food_id && lower_eq f.name food_name)
  if s.recipe_ingredients.any hit then
    let s1 := { s with recipe_ingredients :=
      s.recipe_ingredients.filter (fun ri => ¬ hit ri) }
    (recompute_recipe_food s1 recipe_id now).map (fun s2 => (true, s2))
  else some (false, s)

/-- Database::set_recipe_portions: UPDATE portions and updated_at, then
recompute the virtual food. -/
def set_recipe_portions (s : DbState) (recipe_id : Int) (portions : ℚ)
    (now : String) : Option DbState :=
  let s1 := { s with recipes := s.recipes.map (fun r =>
    if r.id == recipe_id then
      { r with portions := portions, updated_at := now }
    else r) }
  recompute_recipe_food s1 recipe_id now

/-- The recompute pass run after the ingredient merge step: recompute
every touched recipe in turn. -/
def recompute_pass (s : DbState) (rids : List Int) (now : String) :
    Option DbState :=
  rids.foldlM (fun st rid => recompute_recipe_food st rid now) s

/-- Total ingredient weight W of a joined ingredient list. -/
def ing_weight (ings : List (RecipeIngredientRow × Food)) : ℚ :=
  (ings.map (fun p => p.1.quantity_g)).sum

/-- The claim's calorie total: sum of quantity_g times calories_per_100g
over 100. -/
def claim_cal (ings : List (RecipeIngredientRow × Food)) : ℚ :=
  (ings.map (fun p => p.1.quantity_g * p.2.calories_per_100g / 100)).sum

/-- The claim's total for an optional macro column (a missing value
contributes nothing). -/
def claim_weighted (ings : List (RecipeIngredientRow × Food))
    (sel : Food → Option ℚ) : ℚ :=
  (ings.map (fun p => p.1.quantity_g * ((sel p.2).getD 0) / 100)).sum

/-- The claimed relation between a recipe row, its virtual food row and
the joined ingredient list (invariant 2 of the spec, written from the
claim): source is recipe; when W is positive every per-100g macro is the
weighted total scaled by 100 / W and the default serving is W / portions;
otherwise all five values are 0. -/
def recipe_food_formula (s : DbState) (rid : Int) (r : Recipe) (f : Food) :
    Prop :=
  f.source = "recipe" ∧
  (ing_weight (recipe_ingredient_join s rid) > 0 →
    f.calories_per_100g =
      claim_cal (recipe_ingredient_join s rid) * 100 /
        ing_weight (recipe_ingredient_join s rid) ∧
    f.protein_per_100g =
      some (claim_weighted (recipe_ingredient_join s rid)
        Food.protein_per_100g * 100 /
          ing_weight (recipe_ingredient_join s rid)) ∧
    f.carbs_per_100g =
      some (claim_weighted (recipe_ingredient_join s rid)
        Food.carbs_per_100g * 100 /
          ing_weight (recipe_ingredient_join s rid)) ∧
    f.fat_per_100g =
      some (claim_weighted (recipe_ingredient_join s rid)
        Food.fat_per_100g * 100 /
          ing_weight (recipe_ingredient_join s rid)) ∧
    f.default_serving_g =
      some (ing_weight (recipe_ingredient_join s rid) / r.portions)) ∧
  (¬ ing_weight (recipe_ingredient_join s rid) > 0 →
    f.calories_per_100g = 0 ∧ f.protein_per_100g = some 0 ∧
    f.carbs_per_100g = some 0 ∧ f.fat_per_100g = some 0 ∧
    f.default_serving_g = some 0)

instance recipe_food_formula_dec (s : DbState) (rid : Int) (r : Recipe)
    (f : Food) : Decidable (recipe_food_formula s rid r f) := by
  unfold recipe_food_formula
  infer_instance

/-- The invariant claimed by C4: whenever the recipe row and its virtual
food row both exist, the claimed virtual-food relation holds. -/
def recipe_virtual_food_ok (s : DbState) (rid : Int) : Prop :=
  match get_recipe_by_id s.recipes rid with
  | none => True
  | some r =>
      match get_food_by_id s.foods r.food_id with
      | none => True
      | some f => recipe_food_formula s rid r f

instance recipe_virtual_food_ok_dec (s : DbState) (rid : Int) :
    Decidable (recipe_virtual_food_ok s rid) :=
  match h1 : get_recipe_by_id s.recipes rid with
  | none =>
      isTrue (by unfold recipe_virtual_food_ok; rw [h1]; exact trivial)
  | some r =>
      match h2 : get_food_by_id s.foods r.food_id with
      | none =>
          isTrue (by
            unfold recipe_virtual_food_ok
            rw [h1]
            dsimp only
            rw [h2]
            try exact trivial)
      | some f =>
          decidable_of_iff (recipe_food_formula s rid r f) (by
            unfold recipe_virtual_food_ok
            rw [h1]
            dsimp only
            rw [h2]
            try exact Iff.rfl)

/-- The plain ingredient food of the C4 counterexample. -/
def cex4FoodA : Food :=
  { id := 1, name := "A", brand := none, barcode := none
    calories_per_100g := 100, protein_per_100g := none
    carbs_per_100g := none, fat_per_100g := none, default_serving_g := none
    source := "user", created_at := "T0", uuid := "u-a", updated_at := "T0" }

/-- The virtual food of the C4 counterexample recipe (fresh, all zero). -/
def cex4FoodV : Food :=
  { id := 2, name := "R", brand := none, barcode := none
    calories_per_100g := 0, protein_per_100g := some 0
    carbs_per_100g := some 0, fat_per_100g := some 0
    default_serving_g := some 0, source := "recipe", created_at := "T0"
    uuid := "u-v", updated_at := "T0" }

/-- The C4 counterexample recipe, whose virtual food is cex4FoodV. -/
def cex4Recipe : Recipe :=
  { id := 1, uuid := "u-r", food_id := 2, portions := 1, created_at := "T0"
    updated_at := "T0" }

/-- An existing ordinary ingredient: 100 g of food A. -/
def cex4Ri : RecipeIngredientRow :=
  { id := 1, recipe_id := 1, food_id := 1, quantity_g := 100, uuid := "u-i1"
    updated_at := "T0" }

/-- The C4 counterexample store before the pathological insert. -/
def cex4State : DbState :=
  { emptyDb with
      foods := [cex4FoodA, cex4FoodV]
      recipes := [cex4Recipe]
      recipe_ingredients := [cex4Ri] }

/-- The ingredient row created by the pathological insert. -/
def cex4Ri2 : RecipeIngredientRow :=
  { id := 2, recipe_id := 1, food_id := 2, quantity_g := 100, uuid := "u-i2"
    updated_at := "T1" }

/-- The virtual food after the pathological recompute: calories 50,
serving 200. -/
def cex4FoodV2 : Food :=
  { cex4FoodV with
      calories_per_100g := 50
      default_serving_g := some 200
      updated_at := "T1" }

/-- The store after adding the virtual food to its own recipe. -/
def cex4Post : DbState :=
  { emptyDb with
      foods := [cex4FoodA, cex4FoodV2]
      recipes := [cex4Recipe]
      recipe_ingredients := [cex4Ri, cex4Ri2] }

/-- C4 counterexample: adding the recipe's own virtual food as an
ingredient (100 g of food id 2 into recipe 1) is an add-ingredient
operation after which the claimed equation fails: recompute reads the
virtual food's old macros, so the stored calories_per_100g is 50 while
the claimed weighted formula over the new state yields 75. -/
theorem recipe_selfref_counterexample :
    add_recipe_ingredient cex4State 1 2 100 "T1" "u-i2" =
      some (cex4Ri2, cex4Post) ∧
    ¬ recipe_virtual_food_ok cex4Post 1 := by
  constructor
  · simp only [add_recipe_ingredient, recompute_recipe_food, cex4State,
      emptyDb, cex4Ri, cex4FoodA, cex4FoodV, cex4Recipe, cex4Ri2, cex4Post,
      cex4FoodV2, next_id, get_recipe_by_id, get_food_by_id,
      recipe_ingredient_join, recompute_vals, recompute_totals,
      recompute_update, List.find?, List.filter, List.filterMap, List.map,
      List.foldr, List.sum]
    norm_num
  · intro h
    have e12 : ((1 : Int) == 2) = false := by decide
    have e22 : ((2 : Int) == 2) = true := by decide
    have e11 : ((1 : Int) == 1) = true := by decide
    have e21 : ((2 : Int) == 1) = false := by decide
    have hc : cex4FoodV2.calories_per_100g =
        claim_cal (recipe_ingredient_join cex4Post 1) * 100 /
          ing_weight (recipe_ingredient_join cex4Post 1) := by
      have h1 : get_recipe_by_id cex4Post.recipes 1 = some cex4Recipe := rfl
      have h2 : get_food_by_id cex4Post.foods cex4Recipe.food_id =
          some cex4FoodV2 := rfl
      unfold recipe_virtual_food_ok at h
      rw [h1] at h
      dsimp only at h
      rw [h2] at h
      refine (h.2.1 ?_).1
      show ing_weight (recipe_ingredient_join cex4Post 1) > 0
      norm_num [ing_weight, recipe_ingredient_join, cex4Post, emptyDb,
        cex4Ri, cex4Ri2, cex4FoodA, cex4FoodV2, cex4FoodV, get_food_by_id,
        List.find?, List.filter, List.filterMap, e12, e22, e11, e21]
    revert hc
    norm_num [claim_cal, ing_weight, recipe_ingredient_join, cex4Post,
      emptyDb, cex4Ri, cex4Ri2, cex4FoodA, cex4FoodV2, cex4FoodV,
      get_food_by_id, List.find?, List.filter, List.filterMap,
      e12, e22, e11, e21]

theorem find?_map_pres {α : Type} (l : List α) (g : α → α) (p : α → Bool)
    (h : ∀ x, p (g x) = p x) : (l.map g).find? p = (l.find? p).map g := by
  induction l with
  | nil => rfl
  | cons a t ih =>
      by_cases hp : p a = true
      · rw [List.map_cons, List.find?_cons_of_pos _ (by rw [h]; exact hp),
          List.find?_cons_of_pos _ hp, Option.map_some']
      · rw [List.map_cons, List.find?_cons_of_neg _ (by rw [h]; simpa using hp),
          List.find?_cons_of_neg _ (by simpa using hp), ih]

theorem recompute_update_id (v : ℚ × ℚ × ℚ × ℚ × ℚ) (i : Int) (now : String)
    (f : Food) : (recompute_update v i now f).id = f.id := by
  unfold recompute_update
  split <;> rfl

theorem recompute_update_source (v : ℚ × ℚ × ℚ × ℚ × ℚ) (i : Int)
    (now : String) (f : Food) :
    (recompute_update v i now f).source = f.source := by
  unfold recompute_update
  split <;> rfl

theorem recompute_update_ne (v : ℚ × ℚ × ℚ × ℚ × ℚ) (i : Int) (now : String)
    (f : Food) (h : ¬ f.id = i) : recompute_update v i now f = f := by
  unfold recompute_update
  rw [if_neg (by simpa using h)]

theorem get_food_by_id_map (l : List Food) (v : ℚ × ℚ × ℚ × ℚ × ℚ) (i : Int)
    (now : String) (j : Int) :
    get_food_by_id (l.map (recompute_update v i now)) j =
      (get_food_by_id l j).map (recompute_update v i now) := by
  unfold get_food_by_id
  exact find?_map_pres l _ _ (fun x => by rw [recompute_update_id])

/-- The foods table recompute_recipe_food writes for recipe r. -/
def recomputed_foods (s : DbState) (rid : Int) (r : Recipe) (now : String) :
    List Food :=
  s.foods.map (recompute_update
    (recompute_vals (recipe_ingredient_join s rid) r.portions) r.food_id now)

theorem recompute_spec (s : DbState) (rid : Int) (now : String)
    (s' : DbState) (r : Recipe) (hr : get_recipe_by_id s.recipes rid = some r)
    (hrec : recompute_recipe_food s rid now = some s') :
    s' = { s with foods := recomputed_foods s rid r now } := by
  unfold recompute_recipe_food at hrec
  rw [hr] at hrec
  simp only [Option.map_some', Option.some.injEq] at hrec
  exact hrec.symm

theorem join_foods_map (s : DbState) (rid0 : Int) (v : ℚ × ℚ × ℚ × ℚ × ℚ)
    (i : Int) (now : String)
    (h : ∀ p ∈ recipe_ingredient_join s rid0, p.2.id ≠ i) :
    recipe_ingredient_join
        { s with foods := s.foods.map (recompute_update v i now) } rid0 =
      recipe_ingredient_join s rid0 := by
  unfold recipe_ingredient_join
  dsimp only
  apply List.filterMap_congr
  intro ri hri
  rw [get_food_by_id_map]
  cases hlook : get_food_by_id s.foods ri.food_id with
  | none => rfl
  | some f =>
      have hmem : (ri, f) ∈ recipe_ingredient_join s rid0 := by
        unfold recipe_ingredient_join
        exact List.mem_filterMap.mpr ⟨ri, hri, by rw [hlook]; rfl⟩
      rw [Option.map_some', Option.map_some',
        recompute_update_ne v i now f (h (ri, f) hmem)]
      rfl

theorem claim_cal_comm (J : List (RecipeIngredientRow × Food)) :
    (J.map (fun p => p.2.calories_per_100g * p.1.quantity_g / 100)).sum =
      claim_cal J := by
  unfold claim_cal
  congr 1
  apply List.map_congr_left
  intro p _
  ring

theorem claim_weighted_filterMap (J : List (RecipeIngredientRow × Food))
    (sel : Food → Option ℚ) :
    (J.filterMap (fun p =>
      (sel p.2).map (fun v => v * p.1.quantity_g / 100))).sum =
      claim_weighted J sel := by
  unfold claim_weighted
  induction J with
  | nil => rfl
  | cons a t ih =>
      cases hsel : sel a.2 with
      | none =>
          rw [List.filterMap_cons, List.map_cons, hsel]
          simp only [Option.map_none', List.sum_cons, hsel]
          rw [ih]
          simp [hsel]
      | some v =>
          rw [List.filterMap_cons, List.map_cons, hsel]
          simp only [Option.map_some', List.sum_cons, hsel]
          rw [ih]
          simp only [Option.getD_some]
          ring_nf

/-- Database::recompute_recipe_food establishes the claimed virtual-food
relation, provided the virtual food was a recipe-sourced food and the
recipe does not contain its own virtual food among its (joined)
ingredients. -/
theorem recompute_establishes (s : DbState) (rid : Int) (now : String)
    (s' : DbState) (r : Recipe)
    (hr : get_recipe_by_id s.recipes rid = some r)
    (hrec : recompute_recipe_food s rid now = some s')
    (hsrc : ∀ f0, get_food_by_id s.foods r.food_id = some f0 →
      f0.source = "recipe")
    (hself : ∀ p ∈ recipe_ingredient_join s rid, p.2.id ≠ r.food_id) :
    recipe_virtual_food_ok s' rid := by
  have hs' := recompute_spec s rid now s' r hr hrec
  subst hs'
  unfold recipe_virtual_food_ok
  rw [show ({ s with foods := recomputed_foods s rid r now } : DbState).recipes
      = s.recipes from rfl, hr]
  dsimp only
  have hlookmap : get_food_by_id (recomputed_foods s rid r now) r.food_id =
      (get_food_by_id s.foods r.food_id).map
        (recompute_update
          (recompute_vals (recipe_ingredient_join s rid) r.portions)
          r.food_id now) := by
    unfold recomputed_foods
    exact get_food_by_id_map _ _ _ _ _
  rw [hlookmap]
  cases hlook : get_food_by_id s.foods r.food_id with
  | none => exact trivial
  | some f0 =>
      rw [Option.map_some']
      dsimp only
      have hid0 : f0.id = r.food_id := by
        have := List.find?_some hlook
        simpa using this
      have hJ : recipe_ingredient_join
          { s with foods := recomputed_foods s rid r now } rid =
          recipe_ingredient_join s rid := by
        unfold recomputed_foods
        exact join_foods_map s rid _ r.food_id now hself
      have hupd : recompute_update
          (recompute_vals (recipe_ingredient_join s rid) r.portions)
          r.food_id now f0 =
          { f0 with
              calories_per_100g :=
                (recompute_vals (recipe_ingredient_join s rid) r.portions).1
              protein_per_100g :=
                some (recompute_vals (recipe_ingredient_join s rid)
                  r.portions).2.1
              carbs_per_100g :=
                some (recompute_vals (recipe_ingredient_join s rid)
                  r.portions).2.2.1
              fat_per_100g :=
                some (recompute_vals (recipe_ingredient_join s rid)
                  r.portions).2.2.2.1
              default_serving_g :=
                some (recompute_vals (recipe_ingredient_join s rid)
                  r.portions).2.2.2.2
              updated_at := now } := by
        unfold recompute_update
        rw [if_pos (by simpa using hid0)]
      unfold recipe_food_formula
      rw [hJ, hupd]
      refine ⟨hsrc f0 hlook, ?_, ?_⟩
      · intro hW
        have hWr : (List.map (fun p => p.1.quantity_g)
            (recipe_ingredient_join s rid)).sum > 0 := hW
        unfold recompute_vals recompute_totals
        dsimp only
        rw [if_pos hWr]
        dsimp only
        refine ⟨?_, ?_, ?_, ?_, rfl⟩
        · rw [claim_cal_comm]
          rfl
        · rw [claim_weighted_filterMap]
          rfl
        · rw [claim_weighted_filterMap]
          rfl
        · rw [claim_weighted_filterMap]
          rfl
      · intro hW
        have hWr : ¬ (List.map (fun p => p.1.quantity_g)
            (recipe_ingredient_join s rid)).sum > 0 := hW
        unfold recompute_vals recompute_totals
        dsimp only
        rw [if_neg hWr]
        dsimp only
        exact ⟨rfl, rfl, rfl, rfl, rfl⟩

theorem invariant_transport (sa sb : DbState) (rid : Int)
    (hrecs : sb.recipes = sa.recipes)
    (hjoin : recipe_ingredient_join sb rid = recipe_ingredient_join sa rid)
    (hfood : ∀ r, get_recipe_by_id sa.recipes rid = some r →
      get_food_by_id sb.foods r.food_id = get_food_by_id sa.foods r.food_id)
    (h : recipe_virtual_food_ok sa rid) : recipe_virtual_food_ok sb rid := by
  unfold recipe_virtual_food_ok at h ⊢
  rw [hrecs]
  cases hr : get_recipe_by_id sa.recipes rid with
  | none => exact trivial
  | some r =>
      rw [hr] at h
      dsimp only at h ⊢
      rw [hfood r hr]
      cases hf : get_food_by_id sa.foods r.food_id with
      | none => exact trivial
      | some f =>
          rw [hf] at h
          dsimp only at h ⊢
          unfold recipe_food_formula at h ⊢
          rw [hjoin]
          exact h

theorem recompute_components (st : DbState) (x : Int) (now : String)
    (st' : DbState) (hrec : recompute_recipe_food st x now = some st') :
    ∃ rx, get_recipe_by_id st.recipes x = some rx ∧
      st' = { st with foods := recomputed_foods st x rx now } := by
  cases hx : get_recipe_by_id st.recipes x with
  | none =>
      exfalso
      unfold recompute_recipe_food at hrec
      rw [hx] at hrec
      simp at hrec
  | some rx => exact ⟨rx, rfl, recompute_spec st x now st' rx hx hrec⟩

theorem get_food_by_id_map_ne (l : List Food) (v : ℚ × ℚ × ℚ × ℚ × ℚ)
    (i : Int) (now : String) (j : Int) (hne : j ≠ i) :
    get_food_by_id (l.map (recompute_update v i now)) j =
      get_food_by_id l j := by
  rw [get_food_by_id_map]
  cases hl : get_food_by_id l j with
  | none => rfl
  | some f =>
      have hfj : f.id = j := by
        have := List.find?_some hl
        simpa using this
      rw [Option.map_some',
        recompute_update_ne v i now f (by rw [hfj]; exact hne)]

theorem pass_correct (s : DbState) (rid : Int) (r : Recipe) (now : String)
    (hr : get_recipe_by_id s.recipes rid = some r) :
    ∀ (rids : List Int) (st s₂ : DbState),
      recompute_pass st rids now = some s₂ →
      st.recipes = s.recipes →
      recipe_ingredient_join st rid = recipe_ingredient_join s rid →
      (∀ f0, get_food_by_id st.foods r.food_id = some f0 →
        f0.source = "recipe") →
      (rid ∈ rids ∨ recipe_virtual_food_ok st rid) →
      (∀ rid' ∈ rids, ∀ r', get_recipe_by_id s.recipes rid' = some r' →
        (∀ p ∈ recipe_ingredient_join s rid, p.2.id ≠ r'.food_id) ∧
        (r'.food_id = r.food_id → rid' = rid)) →
      recipe_virtual_food_ok s₂ rid := by
  intro rids
  induction rids with
  | nil =>
      intro st s₂ hpass hre hjoin hsrc hd hcross
      have hst : st = s₂ := by
        unfold recompute_pass at hpass
        simpa using hpass
      rcases hd with hmem | hok
      · exact absurd hmem (List.not_mem_nil rid)
      · exact hst ▸ hok
  | cons x rest ih =>
      intro st s₂ hpass hre hjoin hsrc hd hcross
      unfold recompute_pass at hpass
      rw [List.foldlM_cons] at hpass
      cases hstep : recompute_recipe_food st x now with
      | none =>
          rw [hstep] at hpass
          simp at hpass
      | some st1 =>
          rw [hstep] at hpass
          have hrest : recompute_pass st1 rest now = some s₂ := by
            simpa [recompute_pass] using hpass
          obtain ⟨rx, hrx, hst1⟩ := recompute_components st x now st1 hstep
          have hrxs : get_recipe_by_id s.recipes x = some rx := by
            rw [← hre]; exact hrx
          have hcx := hcross x (List.mem_cons_self x rest) rx hrxs
          have hre1 : st1.recipes = s.recipes := by
            rw [hst1]; exact hre
          have hselfx : ∀ p ∈ recipe_ingredient_join st rid,
              p.2.id ≠ rx.food_id := by
            intro p hp
            exact hcx.1 p (hjoin ▸ hp)
          have hjoin1 : recipe_ingredient_join st1 rid =
              recipe_ingredient_join s rid := by
            rw [hst1]
            unfold recomputed_foods
            rw [join_foods_map st rid _ rx.food_id now hselfx]
            exact hjoin
          have hsrc1 : ∀ f0, get_food_by_id st1.foods r.food_id = some f0 →
              f0.source = "recipe" := by
            intro f0 hf0
            rw [hst1] at hf0
            rw [show ({ st with foods := recomputed_foods st x rx now } :
                DbState).foods = recomputed_foods st x rx now from rfl] at hf0
            unfold recomputed_foods at hf0
            rw [get_food_by_id_map] at hf0
            cases hlk : get_food_by_id st.foods r.food_id with
            | none => rw [hlk] at hf0; simp at hf0
            | some f1 =>
                rw [hlk, Option.map_some', Option.some.injEq] at hf0
                rw [← hf0, recompute_update_source]
                exact hsrc f1 hlk
          by_cases hx : x = rid
          · subst hx
            have hrst : get_recipe_by_id st.recipes x = some r := by
              rw [hre]; exact hr
            have hrxr : rx = r := by
              rw [hrst] at hrx
              exact (Option.some.inj hrx).symm
            have hselfr : ∀ p ∈ recipe_ingredient_join st x,
                p.2.id ≠ r.food_id := by
              intro p hp
              have := hselfx p hp
              rwa [hrxr] at this
            have hok1 : recipe_virtual_food_ok st1 x :=
              recompute_establishes st x now st1 r hrst hstep hsrc hselfr
            exact ih st1 s₂ hrest hre1 hjoin1 hsrc1 (Or.inr hok1)
              (fun rid' h' => hcross rid' (List.mem_cons_of_mem _ h'))
          · have hd1 : rid ∈ rest ∨ recipe_virtual_food_ok st1 rid := by
              rcases hd with hmem | hok
              · rcases List.mem_cons.mp hmem with h | h
                · exact absurd h.symm hx
                · exact Or.inl h
              · right
                refine invariant_transport st st1 rid ?_ ?_ ?_ hok
                · rw [hst1]
                · rw [hjoin1]
                  exact hjoin.symm
                · intro r' hr'
                  have hr'r : r' = r := by
                    rw [hre, hr] at hr'
                    exact (Option.some.inj hr').symm
                  subst hr'r
                  rw [hst1]
                  show get_food_by_id (recomputed_foods st x rx now) r'.food_id =
                    get_food_by_id st.foods r'.food_id
                  unfold recomputed_foods
                  exact get_food_by_id_map_ne st.foods _ rx.food_id now
                    r'.food_id (fun he => hx (hcx.2 he.symm))
            exact ih st1 s₂ hrest hre1 hjoin1 hsrc1 hd1
              (fun rid' h' => hcross rid' (List.mem_cons_of_mem _ h'))

theorem mem_join_append (s : DbState) (rid : Int)
    (nri : RecipeIngredientRow) (p : RecipeIngredientRow × Food)
    (hp : p ∈ recipe_ingredient_join
      { s with recipe_ingredients := s.recipe_ingredients ++ [nri] } rid) :
    p ∈ recipe_ingredient_join s rid ∨
      ∃ f, get_food_by_id s.foods nri.food_id = some f ∧ p = (nri, f) := by
  unfold recipe_ingredient_join at hp ⊢
  dsimp only at hp
  rw [List.filter_append, List.filterMap_append] at hp
  rcases List.mem_append.mp hp with h | h
  · exact Or.inl h
  · right
    rcases List.mem_filterMap.mp h with ⟨ri, hri, heq⟩
    have hri2 := List.mem_filter.mp hri
    have hrin : ri = nri := List.mem_singleton.mp hri2.1
    subst hrin
    cases hlk : get_food_by_id s.foods ri.food_id with
    | none => rw [hlk] at heq; simp at heq
    | some f =>
        rw [hlk, Option.map_some'] at heq
        exact ⟨f, rfl, (Option.some.inj heq).symm⟩

theorem join_filter_subset (s : DbState) (rid : Int)
    (g : RecipeIngredientRow → Bool) (p : RecipeIngredientRow × Food)
    (hp : p ∈ recipe_ingredient_join
      { s with recipe_ingredients := s.recipe_ingredients.filter g } rid) :
    p ∈ recipe_ingredient_join s rid := by
  unfold recipe_ingredient_join at hp ⊢
  dsimp only at hp
  obtain ⟨ri, hri, heq⟩ := List.mem_filterMap.mp hp
  have hri2 := List.mem_filter.mp hri
  have hri3 := List.mem_filter.mp hri2.1
  exact List.mem_filterMap.mpr
    ⟨ri, List.mem_filter.mpr ⟨hri3.1, hri2.2⟩, heq⟩

/-- C4 (amended): after adding an ingredient whose food is not the
recipe's own virtual food, after removing an ingredient, after changing
the portion count, and after the sync merge's recompute pass over touched
recipes (provided no recomputed recipe's virtual food occurs among this
recipe's ingredients, and distinct touched recipes have distinct virtual
foods), the recipe's virtual food satisfies the claimed weighted-total
equations, zeroes on empty weight, and source recipe. -/
theorem recipe_materializer_invariant (s : DbState) (rid : Int) (r : Recipe)
    (hr : get_recipe_by_id s.recipes rid = some r)
    (hsrc : ∀ f0, get_food_by_id s.foods r.food_id = some f0 →
      f0.source = "recipe")
    (hself : ∀ p ∈ recipe_ingredient_join s rid, p.2.id ≠ r.food_id) :
    (∀ fid q now u ri s₂, fid ≠ r.food_id →
      add_recipe_ingredient s rid fid q now u = some (ri, s₂) →
      recipe_virtual_food_ok s₂ rid) ∧
    (∀ name now s₂,
      remove_recipe_ingredient s rid name now = some (true, s₂) →
      recipe_virtual_food_ok s₂ rid) ∧
    (∀ portions now s₂,
      set_recipe_portions s rid portions now = some s₂ →
      recipe_virtual_food_ok s₂ rid) ∧
    (∀ rids now s₂, rid ∈ rids →
      (∀ rid' ∈ rids, ∀ r', get_recipe_by_id s.recipes rid' = some r' →
        (∀ p ∈ recipe_ingredient_join s rid, p.2.id ≠ r'.food_id) ∧
        (r'.food_id = r.food_id → rid' = rid)) →
      recompute_pass s rids now = some s₂ →
      recipe_virtual_food_ok s₂ rid) := by
  refine ⟨?_, ?_, ?_, ?_⟩
  · intro fid q now u ri s₂ hfid hadd
    unfold add_recipe_ingredient at hadd
    dsimp only at hadd
    obtain ⟨s₃, hrec, hpair⟩ := Option.map_eq_some'.mp hadd
    have hs3 : s₃ = s₂ := (Prod.mk.injEq _ _ _ _ |>.mp hpair).2
    subst hs3
    refine recompute_establishes _ rid now s₃ r ?_ hrec ?_ ?_
    · exact hr
    · exact hsrc
    · intro p hp
      have hsplit := mem_join_append s rid
        { id := next_id (s.recipe_ingredients.map RecipeIngredientRow.id)
          recipe_id := rid
          food_id := fid
          quantity_g := q
          uuid := u
          updated_at := now } p hp
      rcases hsplit with h | ⟨f, hf, hpf⟩
      · exact hself p h
      · have hfid2 : f.id = fid := by
          have h2 := List.find?_some hf
          simpa using h2
        rw [hpf]
        dsimp only
        rw [hfid2]
        exact hfid
  · intro name now s₂ hrem
    unfold remove_recipe_ingredient at hrem
    dsimp only at hrem
    split at hrem
    · obtain ⟨s₃, hrec, hpair⟩ := Option.map_eq_some'.mp hrem
      have hs3 : s₃ = s₂ := (Prod.mk.injEq _ _ _ _ |>.mp hpair).2
      subst hs3
      refine recompute_establishes _ rid now s₃ r ?_ hrec ?_ ?_
      · exact hr
      · exact hsrc
      · intro p hp
        exact hself p (join_filter_subset s rid _ p hp)
    · simp at hrem
  · intro portions now s₂ hset
    unfold set_recipe_portions at hset
    dsimp only at hset
    have hr1 : get_recipe_by_id
        (s.recipes.map (fun rr =>
          if rr.id == rid then
            { rr with portions := portions, updated_at := now }
          else rr)) rid =
        some { r with portions := portions, updated_at := now } := by
      unfold get_recipe_by_id
      rw [find?_map_pres s.recipes _ _ (fun x => by
        by_cases hxx : (x.id == rid) = true <;> simp [hxx])]
      unfold get_recipe_by_id at hr
      rw [hr, Option.map_some']
      have hrid_r : (r.id == rid) = true := by
        have := List.find?_some hr
        simpa using this
      rw [if_pos hrid_r]
    refine recompute_establishes _ rid now s₂
      { r with portions := portions, updated_at := now } ?_ hset ?_ ?_
    · exact hr1
    · exact hsrc
    · exact hself
  · intro rids now s₂ hmem hcross hpass
    exact pass_correct s rid r now hr rids s s₂ hpass rfl rfl hsrc
      (Or.inl hmem) hcross

/-- A store holding recipe 1 and its virtual food only. -/
def wit4S : DbState :=
  { emptyDb with
      foods := [cex4FoodV]
      recipes := [cex4Recipe] }

/-- The ingredient row created by the witnessed add (unknown food 5). -/
def wit4Ri : RecipeIngredientRow :=
  { id := 1, recipe_id := 1, food_id := 5, quantity_g := 100, uuid := "u-i9"
    updated_at := "T1" }

/-- The store after the witnessed add: the joined weight is zero, so the
virtual food keeps its zeroes and only updated_at moves. -/
def wit4Post : DbState :=
  { emptyDb with
      foods := [{ cex4FoodV with updated_at := "T1" }]
      recipes := [cex4Recipe]
      recipe_ingredients := [wit4Ri] }

/-- Witness for C4: adding 100 g of (absent) food 5 to recipe 1 yields
wit4Post, and the theorem certifies the claimed equations there. -/
theorem recipe_materializer_invariant_witness :
    recipe_virtual_food_ok wit4Post 1 :=
  (recipe_materializer_invariant wit4S 1 cex4Recipe rfl
      (fun f0 h => by rw [← Option.some.inj h]; rfl)
      (fun p hp => absurd hp (List.not_mem_nil p))).1
    5 100 "T1" "u-i9" wit4Ri wit4Post (by decide) rfl

end Grub
